import Mathlib

/-!
Verification development for the AI-Service-Monitor-Pro backend.

The definitions below are a shallow embedding of the Python source under
`backend/`.  Pure computations become Lean functions; the scheduler's and
supervisor's mutable state (APScheduler job table, `running_processes`,
`task_log_entries`, `task_log_files`, the task/log tables of the database)
becomes explicit state passed through step functions.  Wall-clock reads
(`datetime.utcnow()`, `datetime.now()`) become explicit `now` parameters.
Each definition's doc comment names the Python function it embeds.
-/

namespace AIMon

/-- Naive timestamp as used throughout the backend (Python `datetime`,
naive UTC).  Components are plain naturals. -/
structure DateTime where
  year : Nat
  month : Nat
  day : Nat
  hour : Nat
  minute : Nat
  second : Nat
deriving DecidableEq

/-- Calendar date, the result of Python `datetime.date()`. -/
structure Date where
  year : Nat
  month : Nat
  day : Nat
deriving DecidableEq

/-- `datetime.date()`. -/
def DateTime.date (d : DateTime) : Date :=
  ⟨d.year, d.month, d.day⟩

/-- Strict lexicographic order on dates, Python `date < date`. -/
def Date.ltb (a b : Date) : Bool :=
  a.year < b.year ∨ (a.year = b.year ∧
    (a.month < b.month ∨ (a.month = b.month ∧ a.day < b.day)))

/-- Strict lexicographic order on naive timestamps, Python
`datetime < datetime`. -/
def DateTime.ltb (a b : DateTime) : Bool :=
  a.year < b.year ∨ (a.year = b.year ∧
    (a.month < b.month ∨ (a.month = b.month ∧
      (a.day < b.day ∨ (a.day = b.day ∧
        (a.hour < b.hour ∨ (a.hour = b.hour ∧
          (a.minute < b.minute ∨ (a.minute = b.minute ∧
            a.second < b.second)))))))))

/-- Gregorian leap-year test, as in Python's `datetime` module. -/
def isLeapYear (y : Nat) : Bool :=
  (y % 4 = 0 ∧ y % 100 ≠ 0) ∨ y % 400 = 0

/-- Days before the first of month `m` in a non-leap year
(cumulative month lengths), as used by `date.toordinal`. -/
def daysBeforeMonth (m : Nat) : Nat :=
  [0, 31, 59, 90, 120, 151, 181, 212, 243, 273, 304, 334].getD (m - 1) 0

/-- Python `date.toordinal`: proleptic Gregorian ordinal with
`0001-01-01` as ordinal 1. -/
def toOrdinal (y m d : Nat) : Nat :=
  365 * (y - 1) + (y - 1) / 4 - (y - 1) / 100 + (y - 1) / 400 +
    daysBeforeMonth m + (if 2 < m ∧ isLeapYear y then 1 else 0) + d

/-- Python `datetime.weekday()`: Monday = 0 through Sunday = 6. -/
def DateTime.weekday (dt : DateTime) : Nat :=
  (toOrdinal dt.year dt.month dt.day - 1) % 7

/-- `models/task.py`: `RepeatType` enum. -/
inductive RepeatType where
  | none
  | daily
  | weekly
  | monthly
  | quarterly
deriving DecidableEq

/-- `models/task.py`: `TaskStatus` enum. -/
inductive TaskStatus where
  | pending
  | running
  | stopped
  | completed
  | failed
deriving DecidableEq

/-- `models/task.py`: the `Task` row.  `id` is assigned by persistence. -/
structure Task where
  id : Nat
  name : String
  activateEnvCommand : String
  mainProgramCommand : String
  repeatType : RepeatType
  startTime : DateTime
  endTime : Option DateTime
  status : TaskStatus
  processId : Option Nat
  createdAt : DateTime
  updatedAt : DateTime
deriving DecidableEq

/-- `models/log.py`: the `TaskLog` row (a LogEntry).  `endTime = none`
means the entry is still open ("current"). -/
structure LogEntry where
  id : Nat
  taskId : Nat
  logFilePath : String
  startTime : DateTime
  endTime : Option DateTime
deriving DecidableEq

/-! ## Trigger calculator (`core/scheduler.py`, `_schedule_task`) -/

/-- An APScheduler trigger as configured by `_schedule_task`:
either a one-shot `DateTrigger` or a `CronTrigger` restricted to the
fields the scheduler actually sets (`month` list, `day`, `day_of_week`,
`hour`, `minute`, `second`; `Option.none` means the cron field is
unrestricted). -/
inductive Trigger where
  | date (runDate : DateTime)
  | cron (months : Option (List Nat)) (day : Option Nat)
      (dayOfWeek : Option Nat) (hour : Nat) (minute : Nat) (second : Nat)
deriving DecidableEq

/-- `scheduler.py` lines 178-182 (and 269-273 for the stop job):
`quarter_start_month = ((month - 1) // 3) * 3 + 1` followed by
`[quarter_start_month + i*3 for i in range(4) if quarter_start_month + i*3 <= 12]`. -/
def quarterMonths (month : Nat) : List Nat :=
  let quarterStartMonth := ((month - 1) / 3) * 3 + 1
  ((List.range 4).map (fun i => quarterStartMonth + i * 3)).filter (· ≤ 12)

/-- The calendar months named by a trigger: a date trigger fires only in
its run date's month; a cron trigger fires in its `month` list, or in
every month (1..12) when the field is unrestricted. -/
def triggerMonths : Trigger → List Nat
  | .date runDate => [runDate.month]
  | .cron months _ _ _ _ _ =>
      match months with
      | some ms => ms
      | none => (List.range 12).map (· + 1)

/-- `_schedule_task` lines 149-189: the fire trigger derived from the
task's repeat type and `start_time`.  The Python `else: return` branch is
unreachable because `RepeatType` is a closed enum. -/
def computeTrigger (task : Task) : Trigger :=
  match task.repeatType with
  | .none => .date task.startTime
  | .daily => .cron Option.none Option.none Option.none
      task.startTime.hour task.startTime.minute task.startTime.second
  | .weekly => .cron Option.none Option.none (some task.startTime.weekday)
      task.startTime.hour task.startTime.minute task.startTime.second
  | .monthly => .cron Option.none (some task.startTime.day) Option.none
      task.startTime.hour task.startTime.minute task.startTime.second
  | .quarterly => .cron (some (quarterMonths task.startTime.month))
      (some task.startTime.day) Option.none
      task.startTime.hour task.startTime.minute task.startTime.second

/-- `_schedule_task` lines 210-287: the stop trigger derived from the
repeat type and `end_time`.  For a one-shot task the stop job is armed
only when `end_time > datetime.utcnow()`; `Option.none` means no stop job
is added (the pre-existing one, if any, stays removed). -/
def computeStopTrigger (task : Task) (endT : DateTime) (now : DateTime) : Option Trigger :=
  match task.repeatType with
  | .none => if now.ltb endT then some (.date endT) else Option.none
  | .daily => some (.cron Option.none Option.none Option.none
      endT.hour endT.minute endT.second)
  | .weekly => some (.cron Option.none Option.none (some endT.weekday)
      endT.hour endT.minute endT.second)
  | .monthly => some (.cron Option.none (some endT.day) Option.none
      endT.hour endT.minute endT.second)
  | .quarterly => some (.cron (some (quarterMonths endT.month))
      (some endT.day) Option.none endT.hour endT.minute endT.second)

/-- APScheduler's job table, keyed by the string job ids the scheduler
uses (`f"task_{id}"`, `f"stop_task_{id}"`). -/
def JobTable : Type := String → Option Trigger

/-- Job id of the fire job: `f"task_{task.id}"`. -/
def taskJobId (id : Nat) : String := "task_" ++ toString id

/-- Job id of the stop job: `f"stop_task_{task.id}"`. -/
def stopJobId (id : Nat) : String := "stop_task_" ++ toString id

/-- `scheduler.remove_job`: drop the entry for a key. -/
def removeJob (tbl : JobTable) (k : String) : JobTable :=
  fun j => if j = k then Option.none else tbl j

/-- `scheduler.add_job(..., replace_existing=True)`: set the entry. -/
def addJob (tbl : JobTable) (k : String) (t : Trigger) : JobTable :=
  fun j => if j = k then some t else tbl j

/-- `if self.scheduler.get_job(job_id): self.scheduler.remove_job(job_id)`. -/
def removeJobIfPresent (tbl : JobTable) (k : String) : JobTable :=
  if (tbl k).isSome then removeJob tbl k else tbl

/-- `_schedule_task` (lines 140-287): remove the existing fire job, add
the recomputed fire trigger, and when `end_time` is set remove the
existing stop job and re-add the stop trigger (for one-shot tasks only if
`end_time` is still in the future). -/
def scheduleTask (tbl : JobTable) (task : Task) (now : DateTime) : JobTable :=
  let tbl1 := removeJobIfPresent tbl (taskJobId task.id)
  let tbl2 := addJob tbl1 (taskJobId task.id) (computeTrigger task)
  match task.endTime with
  | Option.none => tbl2
  | some endT =>
      let tbl3 := removeJobIfPresent tbl2 (stopJobId task.id)
      match computeStopTrigger task endT now with
      | Option.none => tbl3
      | some st => addJob tbl3 (stopJobId task.id) st

/-- `_load_pending_tasks` lines 128-136, the per-task decision: a
recurring task is always scheduled; a one-shot task only when its status
is pending and `start_time > now` (a `datetime` is always truthy in
Python, so the `task.start_time and` guard adds nothing). -/
def shouldScheduleOnLoad (task : Task) (now : DateTime) : Bool :=
  if task.repeatType ≠ RepeatType.none then true
  else task.status = TaskStatus.pending ∧ now.ltb task.startTime

/-- `_load_pending_tasks`: fold the per-task decision over the persisted
task list, arming each selected task via `_schedule_task`. -/
def loadPendingTasks (tasks : List Task) (now : DateTime) (tbl : JobTable) : JobTable :=
  tasks.foldl (fun t task =>
    if shouldScheduleOnLoad task now then scheduleTask t task now else t) tbl

/-- The empty job table (fresh `AsyncIOScheduler`). -/
def emptyJobTable : JobTable := fun _ => Option.none

/-- `reschedule_task` (lines 781-788): look the task up in the
persisted table and re-run `_schedule_task` on it; a missing task leaves
the job table untouched. -/
def rescheduleTask (tasks : List Task) (tbl : JobTable) (tid : Nat) (now : DateTime) : JobTable :=
  match tasks.find? (fun t => t.id == tid) with
  | some task => scheduleTask tbl task now
  | Option.none => tbl

/-! ## Lemmas about the job table -/

theorem addJob_apply (tbl : JobTable) (k : String) (v : Trigger) (j : String) :
    addJob tbl k v j = if j = k then some v else tbl j := rfl

theorem removeJobIfPresent_apply (tbl : JobTable) (k : String) (j : String) :
    removeJobIfPresent tbl k j = if j = k then Option.none else tbl j := by
  unfold removeJobIfPresent removeJob
  by_cases hj : j = k
  · subst hj
    cases h : tbl j with
    | none => simp [h]
    | some v => simp [h]
  · by_cases hk : (tbl k).isSome <;> simp [hk, hj]

theorem taskJobId_ne_stopJobId (id : Nat) : taskJobId id ≠ stopJobId id := by
  intro h
  have h2 := congrArg String.length h
  have h5 : ("task_" : String).length = 5 := rfl
  have h10 : ("stop_task_" : String).length = 10 := rfl
  simp only [taskJobId, stopJobId, String.length_append, h5, h10] at h2
  omega

/-- Pointwise characterization of `_schedule_task`'s effect on the job
table: the fire job is set to the recomputed trigger, the stop job (when
`end_time` is present) is set to the recomputed stop trigger or cleared,
and every other job is untouched. -/
theorem scheduleTask_apply (tbl : JobTable) (task : Task) (now : DateTime) (j : String) :
    scheduleTask tbl task now j =
      if j = taskJobId task.id then some (computeTrigger task)
      else
        match task.endTime with
        | Option.none => tbl j
        | some e =>
            if j = stopJobId task.id then computeStopTrigger task e now else tbl j := by
  have hne := taskJobId_ne_stopJobId task.id
  have hne' : stopJobId task.id ≠ taskJobId task.id := Ne.symm hne
  unfold scheduleTask
  cases hend : task.endTime with
  | none =>
      by_cases hj : j = taskJobId task.id <;>
        simp [addJob_apply, removeJobIfPresent_apply, hj]
  | some e =>
      cases hst : computeStopTrigger task e now with
      | none =>
          simp only [hst]
          by_cases hj1 : j = taskJobId task.id
          · subst hj1
            simp [addJob_apply, removeJobIfPresent_apply, hne]
          · by_cases hj2 : j = stopJobId task.id
            · subst hj2
              simp [addJob_apply, removeJobIfPresent_apply, hne', hst]
            · simp [addJob_apply, removeJobIfPresent_apply, hj1, hj2]
      | some st =>
          simp only [hst]
          by_cases hj1 : j = taskJobId task.id
          · subst hj1
            simp [addJob_apply, removeJobIfPresent_apply, hne]
          · by_cases hj2 : j = stopJobId task.id
            · subst hj2
              simp [addJob_apply, removeJobIfPresent_apply, hne', hst]
            · simp [addJob_apply, removeJobIfPresent_apply, hj1, hj2]

theorem scheduleTask_idem (tbl : JobTable) (task : Task) (now : DateTime) :
    scheduleTask (scheduleTask tbl task now) task now = scheduleTask tbl task now := by
  funext j
  rw [scheduleTask_apply, scheduleTask_apply]
  by_cases hj1 : j = taskJobId task.id
  · simp [hj1]
  · cases hend : task.endTime with
    | none => simp [hj1, hend, scheduleTask_apply]
    | some e =>
        by_cases hj2 : j = stopJobId task.id
        · simp [hj1, hj2, hend]
        · simp [hj1, hj2, hend, scheduleTask_apply]

/-! ## Claim theorems for the trigger calculator and reconciliation -/

/-- Concrete quarterly task anchored in calendar month 2, used to settle
C1. -/
def exTaskC1 : Task :=
  { id := 1, name := "q", activateEnvCommand := "conda activate base",
    mainProgramCommand := "python run.py", repeatType := RepeatType.quarterly,
    startTime := ⟨2025, 2, 15, 9, 0, 0⟩, endTime := Option.none,
    status := TaskStatus.pending, processId := Option.none,
    createdAt := ⟨2025, 1, 1, 0, 0, 0⟩, updatedAt := ⟨2025, 1, 1, 0, 0, 0⟩ }

/-- C1 (counterexample): for a quarterly task whose `start_time` falls in
month 2, the code derives the fire months `{1, 4, 7, 10}` — in
particular the trigger does not fire in month 2, so the claimed fire-month
set `{2, 5, 8, 11}` is wrong. -/
theorem C1_counterexample :
    triggerMonths (computeTrigger exTaskC1) = [1, 4, 7, 10] ∧
      ¬ (2 ∈ triggerMonths (computeTrigger exTaskC1)) := by
  constructor <;> decide

/-- C1 (amended): for a task with repeat rule quarterly whose
`start_time` falls in month 2, the scheduled trigger's fire months are
exactly `{1, 4, 7, 10}` — the months of the calendar-quarter starts,
because the code anchors on the first month of the quarter containing
`start_time`, not on `start_time`'s own month. -/
theorem C1_quarterly_anchor_month2 (task : Task)
    (hq : task.repeatType = RepeatType.quarterly)
    (hm : task.startTime.month = 2) :
    triggerMonths (computeTrigger task) = [1, 4, 7, 10] := by
  simp only [computeTrigger, hq, triggerMonths, quarterMonths, hm]
  decide

theorem C1_quarterly_anchor_month2_witness :
    exTaskC1.repeatType = RepeatType.quarterly ∧
      exTaskC1.startTime.month = 2 ∧
      triggerMonths (computeTrigger exTaskC1) = [1, 4, 7, 10] :=
  ⟨rfl, rfl, C1_quarterly_anchor_month2 exTaskC1 rfl rfl⟩

/-- C4: at scheduler startup (`_load_pending_tasks`), a persisted task is
re-armed exactly when its repeat rule is not `none`, or its status is
`pending` and its start time is strictly in the future relative to `now`. -/
theorem C4_load_rearm_condition (task : Task) (now : DateTime) :
    (loadPendingTasks [task] now emptyJobTable) (taskJobId task.id) ≠ Option.none ↔
      (task.repeatType ≠ RepeatType.none ∨
        (task.status = TaskStatus.pending ∧ now.ltb task.startTime = true)) := by
  unfold loadPendingTasks
  simp only [List.foldl_cons, List.foldl_nil]
  by_cases hs : shouldScheduleOnLoad task now = true
  · rw [if_pos hs]
    rw [scheduleTask_apply]
    simp only [if_pos rfl]
    constructor
    · intro _
      unfold shouldScheduleOnLoad at hs
      by_cases hr : task.repeatType ≠ RepeatType.none
      · exact Or.inl hr
      · rw [if_neg hr] at hs
        simp only [decide_eq_true_eq, Bool.and_eq_true, decide_eq_true_iff] at hs
        right
        constructor
        · exact of_decide_eq_true (by
            have := hs
            simpa using this.1)
        · simpa using hs.2
    · intro _; simp
  · rw [if_neg hs]
    unfold shouldScheduleOnLoad at hs
    constructor
    · intro h; exact absurd rfl h
    · intro h
      exfalso
      apply hs
      by_cases hr : task.repeatType ≠ RepeatType.none
      · rw [if_pos hr]
      · rw [if_neg hr]
        rcases h with h | ⟨h1, h2⟩
        · exact absurd h hr
        · simp [h1, h2]

/-- C7: `reschedule` followed by an immediate second `reschedule`, with
the task's persisted attributes and the clock unchanged in between, leaves
the job table — hence the set of future fire times — identical to a single
`reschedule`: the computed schedule depends only on the task's attributes
(and the fixed `now` used for the one-shot stop-job guard). -/
theorem C7_reschedule_idempotent (tasks : List Task) (tbl : JobTable)
    (tid : Nat) (now : DateTime) :
    rescheduleTask tasks (rescheduleTask tasks tbl tid now) tid now =
      rescheduleTask tasks tbl tid now := by
  unfold rescheduleTask
  cases h : tasks.find? (fun t => t.id == tid) with
  | none => rfl
  | some task => exact scheduleTask_idem tbl task now

/-! ## Log rotator (`utils/log_wrapper.py`, class `LogRotator`)

The rotator is modeled over a single wall-clock date (the date check in
`LogRotator.write` compares `datetime.now().date()` with the file's date;
within one date it is always false, so only the line-count ceiling can
trigger rotation) and an initially empty log directory for this task (so
the "reuse a pre-existing file" branch of `_create_new_log_file` does not
fire and the directory scan of `_get_current_part_number` sees exactly
the rotator's own files). -/

/-- `MAX_LINES_PER_FILE = 50000` (`log_wrapper.py` line 20). -/
def MAX_LINES_PER_FILE : Nat := 50000

/-- One line of a log file: the `[任务启动]` start marker, the
`[日志文件轮换]` rotation marker (carrying the part number the code
interpolates into it), or relayed child output. -/
inductive LogLine where
  | startMarker
  | rotationMarker (part : Nat)
  | chunk (s : String)
deriving DecidableEq

/-- Whether a line is the rotation marker. -/
def LogLine.isRotationMarker : LogLine → Bool
  | .rotationMarker _ => true
  | _ => false

/-- One log file of the task's directory: its `_part` number (1 for the
suffix-less first file), its content, and whether its handle has been
closed. -/
structure LogFile where
  part : Nat
  content : List LogLine
  closed : Bool
deriving DecidableEq

/-- The rotator's state: the task's files in creation order (the last one
is `current_log_file`) and `self.line_count`. -/
structure RotatorState where
  files : List LogFile
  lineCount : Nat
deriving DecidableEq

/-- `_get_current_part_number`: scan the task's files for this date and
return one more than the largest part in use (a suffix-less file counts
as part 1, so its presence alone forces part 2). -/
def getCurrentPartNumber (files : List LogFile) : Nat :=
  files.foldl (fun p f => if 1 < f.part then max p (f.part + 1) else max p 2) 1

/-- Append a line to the last (current) file. -/
def appendToLast (l : LogLine) : List LogFile → List LogFile
  | [] => []
  | [f] => [{ f with content := f.content ++ [l] }]
  | f :: g :: fs => f :: appendToLast l (g :: fs)

/-- Close the last (current) file, as `_create_new_log_file` does before
opening the next part. -/
def closeLast : List LogFile → List LogFile
  | [] => []
  | [f] => [{ f with closed := true }]
  | f :: g :: fs => f :: closeLast (g :: fs)

/-- `_create_new_log_file`, same-date branch (lines 75-156): close the
old file, pick the next part number by scanning the directory, open the
new file, write the start marker and — since the new part exceeds 1 — the
rotation marker into the new file.  The old file receives no marker. -/
def createNewLogFile (st : RotatorState) : RotatorState :=
  let files := closeLast st.files
  let newPart := getCurrentPartNumber files
  let newContent :=
    [LogLine.startMarker] ++
      (if 1 < newPart then [LogLine.rotationMarker newPart] else [])
  { files := files ++ [⟨newPart, newContent, false⟩], lineCount := 0 }

/-- `data.count('\n')`: the number of newline characters in a written
chunk. -/
def countNewlines (s : String) : Nat :=
  s.data.countP (· = '\n')

/-- `LogRotator.write` (lines 158-183): append the chunk to the current
file, flush, add its newline count to `self.line_count`, and rotate via
`_create_new_log_file` when the count exceeds the ceiling (the date
condition is false within a single date). -/
def rotatorWrite (st : RotatorState) (s : String) : RotatorState :=
  let st1 : RotatorState :=
    { files := appendToLast (LogLine.chunk s) st.files,
      lineCount := st.lineCount + countNewlines s }
  if MAX_LINES_PER_FILE < st1.lineCount then createNewLogFile st1 else st1

/-- `LogRotator.__init__` over an empty directory: the first file, part 1,
holding only the start marker (lines 130-144, first-creation branch). -/
def rotatorInit : RotatorState :=
  { files := [⟨1, [LogLine.startMarker], false⟩], lineCount := 0 }

/-- Feed a sequence of chunks through `LogRotator.write` starting from a
fresh rotator. -/
def rotatorRun (ws : List String) : RotatorState :=
  ws.foldl rotatorWrite rotatorInit

/-! ### Rotator invariants -/

/-- The rotator still owns a single file: part 1, open, marker-free. -/
def rotatorSingle (st : RotatorState) : Prop :=
  ∃ f, st.files = [f] ∧ f.part = 1 ∧ f.closed = false ∧
    (∀ l ∈ f.content, l.isRotationMarker = false)

/-- A file list whose first file is the closed, marker-free part 1 and
whose second file is part 2 carrying the rotation marker. -/
def splitFiles (fs : List LogFile) : Prop :=
  ∃ f0 f1 rest, fs = f0 :: f1 :: rest ∧
    f0.part = 1 ∧ f0.closed = true ∧
    (∀ l ∈ f0.content, l.isRotationMarker = false) ∧
    f1.part = 2 ∧ LogLine.rotationMarker 2 ∈ f1.content

/-- The rotator has rotated at least once: the first file is the closed,
marker-free part 1, and the second file is part 2 and carries the
rotation marker. -/
def rotatorSplit (st : RotatorState) : Prop :=
  splitFiles st.files

/-- Reachable rotator shapes. -/
def rotatorInv (st : RotatorState) : Prop :=
  rotatorSingle st ∨ rotatorSplit st

theorem appendToLast_length (l : LogLine) (fs : List LogFile) :
    (appendToLast l fs).length = fs.length := by
  induction fs with
  | nil => rfl
  | cons f fs ih =>
      cases fs with
      | nil => rfl
      | cons g gs => simpa [appendToLast] using ih

theorem closeLast_length (fs : List LogFile) :
    (closeLast fs).length = fs.length := by
  induction fs with
  | nil => rfl
  | cons f fs ih =>
      cases fs with
      | nil => rfl
      | cons g gs => simpa [closeLast] using ih

theorem rotatorWrite_length_mono (st : RotatorState) (s : String) :
    st.files.length ≤ (rotatorWrite st s).files.length := by
  unfold rotatorWrite
  by_cases h : MAX_LINES_PER_FILE <
      st.lineCount + countNewlines s
  · simp only [h, if_true, createNewLogFile]
    simp [closeLast_length, appendToLast_length]
  · simp only [h, if_false]
    simp [appendToLast_length]

theorem rotatorRun_length_mono (ws : List String) (st : RotatorState) :
    st.files.length ≤ (ws.foldl rotatorWrite st).files.length := by
  induction ws generalizing st with
  | nil => simp
  | cons s ws ih =>
      calc st.files.length ≤ (rotatorWrite st s).files.length :=
            rotatorWrite_length_mono st s
        _ ≤ ((s :: ws).foldl rotatorWrite st).files.length := by
            simpa using ih (rotatorWrite st s)

theorem rotatorWrite_lineCount_le (st : RotatorState) (s : String) :
    (rotatorWrite st s).lineCount ≤ MAX_LINES_PER_FILE := by
  unfold rotatorWrite
  by_cases hc : MAX_LINES_PER_FILE < st.lineCount + countNewlines s
  · simp [hc, createNewLogFile]
  · simp only [hc, if_false]
    omega

theorem rotatorRun_lineCount_le (ws : List String) (st : RotatorState)
    (h : st.lineCount ≤ MAX_LINES_PER_FILE) :
    (ws.foldl rotatorWrite st).lineCount ≤ MAX_LINES_PER_FILE := by
  induction ws generalizing st with
  | nil => simpa
  | cons s ws ih =>
      simpa using ih (rotatorWrite st s) (rotatorWrite_lineCount_le st s)

/-- While no rotation has happened, `line_count` is exactly the total
number of newlines fed to the rotator. -/
theorem rotatorRun_lineCount_of_single (ws : List String) (st : RotatorState)
    (hst : st.files.length = 1)
    (hfin : ((ws.foldl rotatorWrite st)).files.length = 1) :
    (ws.foldl rotatorWrite st).lineCount =
      st.lineCount + (ws.map countNewlines).sum := by
  induction ws generalizing st with
  | nil => simp
  | cons s ws ih =>
      have hmono := rotatorRun_length_mono ws (rotatorWrite st s)
      simp only [List.foldl_cons] at hfin ⊢
      by_cases hc : MAX_LINES_PER_FILE < st.lineCount + countNewlines s
      · exfalso
        have hlen : (rotatorWrite st s).files.length = st.files.length + 1 := by
          unfold rotatorWrite
          simp [hc, createNewLogFile, closeLast_length, appendToLast_length]
        rw [hlen, hst] at hmono
        omega
      · have hw : rotatorWrite st s =
            ⟨appendToLast (LogLine.chunk s) st.files,
              st.lineCount + countNewlines s⟩ := by
          unfold rotatorWrite
          simp [hc]
        have hlen1 : (rotatorWrite st s).files.length = 1 := by
          rw [hw]; simpa [appendToLast_length] using hst
        rw [ih (rotatorWrite st s) hlen1 hfin, hw]
        simp [List.sum_cons]
        ring

theorem splitFiles_appendToLast (l : LogLine) (fs : List LogFile)
    (h : splitFiles fs) : splitFiles (appendToLast l fs) := by
  rcases h with ⟨f0, f1, rest, hfs, h01, h0c, h0m, h1p, h1m⟩
  subst hfs
  cases rest with
  | nil =>
      exact ⟨f0, { f1 with content := f1.content ++ [l] }, [], rfl,
        h01, h0c, h0m, h1p, by simp [h1m]⟩
  | cons g gs =>
      exact ⟨f0, f1, appendToLast l (g :: gs), rfl, h01, h0c, h0m, h1p, h1m⟩

theorem splitFiles_closeLast (fs : List LogFile)
    (h : splitFiles fs) : splitFiles (closeLast fs) := by
  rcases h with ⟨f0, f1, rest, hfs, h01, h0c, h0m, h1p, h1m⟩
  subst hfs
  cases rest with
  | nil =>
      exact ⟨f0, { f1 with closed := true }, [], rfl, h01, h0c, h0m, h1p,
        by simpa using h1m⟩
  | cons g gs =>
      exact ⟨f0, f1, closeLast (g :: gs), rfl, h01, h0c, h0m, h1p, h1m⟩

theorem splitFiles_concat (x : LogFile) (fs : List LogFile)
    (h : splitFiles fs) : splitFiles (fs ++ [x]) := by
  rcases h with ⟨f0, f1, rest, hfs, h01, h0c, h0m, h1p, h1m⟩
  subst hfs
  exact ⟨f0, f1, rest ++ [x], by simp, h01, h0c, h0m, h1p, h1m⟩

theorem splitFiles_createNew (st : RotatorState)
    (h : splitFiles st.files) : splitFiles (createNewLogFile st).files := by
  unfold createNewLogFile
  exact splitFiles_concat _ _ (splitFiles_closeLast _ h)

theorem rotatorWrite_inv (st : RotatorState) (s : String)
    (h : rotatorInv st) : rotatorInv (rotatorWrite st s) := by
  unfold rotatorWrite
  rcases h with ⟨f, hfs, hpart, hopen, hnomark⟩ | hsplit
  · by_cases hc : MAX_LINES_PER_FILE < st.lineCount + countNewlines s
    · right
      show splitFiles _
      simp only [hc, if_true, createNewLogFile, hfs, appendToLast, closeLast,
        getCurrentPartNumber, List.foldl_cons, List.foldl_nil, hpart]
      refine ⟨_, _, [], rfl, rfl, rfl, ?_, by norm_num, by norm_num⟩
      intro l hl
      rcases List.mem_append.mp hl with hl | hl
      · exact hnomark l hl
      · simp only [List.mem_singleton] at hl
        subst hl; rfl
    · left
      simp only [hc, if_false, hfs, appendToLast]
      refine ⟨_, rfl, hpart, hopen, ?_⟩
      intro l hl
      rcases List.mem_append.mp hl with hl | hl
      · exact hnomark l hl
      · simp only [List.mem_singleton] at hl
        subst hl; rfl
  · by_cases hc : MAX_LINES_PER_FILE < st.lineCount + countNewlines s
    · right
      simp only [hc, if_true]
      exact splitFiles_createNew _ (splitFiles_appendToLast _ _ hsplit)
    · right
      simp only [hc, if_false]
      exact splitFiles_appendToLast _ _ hsplit

theorem rotatorRun_inv (ws : List String) (st : RotatorState)
    (h : rotatorInv st) : rotatorInv (ws.foldl rotatorWrite st) := by
  induction ws generalizing st with
  | nil => simpa
  | cons s ws ih =>
      simpa using ih (rotatorWrite st s) (rotatorWrite_inv st s h)

theorem countNewlines_replicateNl (n : Nat) :
    countNewlines (String.mk (List.replicate n '\n')) = n := by
  show (List.replicate n '\n').countP _ = n
  induction n with
  | zero => rfl
  | succ n ih =>
      rw [List.replicate_succ, List.countP_cons]
      simp [ih]

/-- A single written chunk of 50001 newline characters, enough to push
the line count past the ceiling. -/
def bigChunk : String := String.mk (List.replicate 50001 '\n')

/-- One overflowing write from a fresh rotator, computed symbolically in
the written chunk. -/
theorem rotatorWrite_init_overflow (s : String)
    (h : MAX_LINES_PER_FILE < countNewlines s) :
    rotatorWrite rotatorInit s =
      { files :=
          [⟨1, [LogLine.startMarker, LogLine.chunk s], true⟩,
            ⟨2, [LogLine.startMarker, LogLine.rotationMarker 2], false⟩],
        lineCount := 0 } := by
  unfold rotatorWrite
  have hlt : MAX_LINES_PER_FILE < rotatorInit.lineCount + countNewlines s := by
    simpa [rotatorInit] using h
  rw [if_pos hlt]
  rfl

theorem rotatorRun_bigChunk :
    rotatorRun [bigChunk] =
      { files :=
          [⟨1, [LogLine.startMarker, LogLine.chunk bigChunk], true⟩,
            ⟨2, [LogLine.startMarker, LogLine.rotationMarker 2], false⟩],
        lineCount := 0 } := by
  have hc : countNewlines bigChunk = 50001 := countNewlines_replicateNl 50001
  unfold rotatorRun
  rw [List.foldl_cons, List.foldl_nil]
  exact rotatorWrite_init_overflow bigChunk (by rw [hc]; norm_num [MAX_LINES_PER_FILE])

/-- C3 (counterexample): feeding a single chunk of 50001 newlines to a
fresh rotator does produce a closed first file and a second `_part2`
file, but the rotation marker lands only in the new file — the old file
contains none, so the claim that the marker is written into both files
fails at this input. -/
theorem C3_counterexample :
    MAX_LINES_PER_FILE < ([bigChunk].map countNewlines).sum ∧
      (rotatorRun [bigChunk]).files.map
          (fun f => (f.part, f.closed, f.content.any LogLine.isRotationMarker)) =
        [(1, true, false), (2, false, true)] := by
  have hc : countNewlines bigChunk = 50001 := countNewlines_replicateNl 50001
  constructor
  · simp [hc, MAX_LINES_PER_FILE]
  · rw [rotatorRun_bigChunk]
    rfl

/-- C3 (amended): for every sequence of writes whose cumulative
newline-terminated line count exceeds the fixed ceiling of 50,000 lines,
the rotator closes the first file and opens a second file carrying the
`_part2` suffix, and a rotation marker is written into the new file at
the rotation boundary; the old file receives no rotation marker (in the
code, `_create_new_log_file` closes the old handle without writing to
it, and writes the marker only into the newly opened part). -/
theorem C3_rotation_second_part (ws : List String)
    (h : MAX_LINES_PER_FILE < (ws.map countNewlines).sum) :
    ∃ f0 f1 rest, (rotatorRun ws).files = f0 :: f1 :: rest ∧
      f0.part = 1 ∧ f0.closed = true ∧
      (∀ l ∈ f0.content, l.isRotationMarker = false) ∧
      f1.part = 2 ∧ LogLine.rotationMarker 2 ∈ f1.content := by
  have hinv : rotatorInv (rotatorRun ws) := by
    apply rotatorRun_inv
    exact Or.inl ⟨_, rfl, rfl, rfl, by intro l hl; simp at hl; subst hl; rfl⟩
  rcases hinv with ⟨f, hfs, _, _, _⟩ | hsplit
  · exfalso
    have hlen : (rotatorRun ws).files.length = 1 := by rw [hfs]; rfl
    have hcount := rotatorRun_lineCount_of_single ws rotatorInit rfl hlen
    have hle := rotatorRun_lineCount_le ws rotatorInit (by simp [rotatorInit, MAX_LINES_PER_FILE])
    unfold rotatorRun at hcount hle
    rw [hcount] at hle
    simp only [rotatorInit] at hle
    omega
  · exact hsplit

theorem C3_rotation_second_part_witness :
    MAX_LINES_PER_FILE < ([bigChunk].map countNewlines).sum ∧
      (∃ f0 f1 rest, (rotatorRun [bigChunk]).files = f0 :: f1 :: rest ∧
        f0.part = 1 ∧ f0.closed = true ∧
        (∀ l ∈ f0.content, l.isRotationMarker = false) ∧
        f1.part = 2 ∧ LogLine.rotationMarker 2 ∈ f1.content) :=
  have hc : countNewlines bigChunk = 50001 := countNewlines_replicateNl 50001
  have h : MAX_LINES_PER_FILE < ([bigChunk].map countNewlines).sum := by
    simp [hc, MAX_LINES_PER_FILE]
  ⟨h, C3_rotation_second_part [bigChunk] h⟩

/-! ## Scheduler core, supervisor and persistence state
(`core/scheduler.py`, `services/task_service.py`, `services/log_service.py`)

The combined state of the database (task and log-entry tables), the
APScheduler job table, and the scheduler object's three dictionaries
(`running_processes`, `task_log_entries`, `task_log_files`), plus the set
of log files on disk (contents are not tracked, only existence; the
relative/absolute path duality of the Python code is collapsed into one
canonical path string). -/

structure SysState where
  tasks : List Task
  /-- `task_logs` table rows, newest first (`create_log_entry` inserts at
  the head, matching `get_task_logs`'s `created_at desc` ordering). -/
  logEntries : List LogEntry
  /-- Next autoincrement id the persistence layer will assign. -/
  nextEntryId : Nat
  jobs : JobTable
  /-- Keys of `self.running_processes` (task id → live process handle). -/
  runningProcesses : List Nat
  /-- `self.task_log_entries` (task id → log entry id). -/
  taskLogEntries : List (Nat × Nat)
  /-- `self.task_log_files` (task id → current log file path). -/
  taskLogFiles : List (Nat × String)
  /-- Paths of files existing in the log directory. -/
  fileSystem : List String

/-- Dictionary lookup on an association list. -/
def alGet {α : Type} (l : List (Nat × α)) (k : Nat) : Option α :=
  (l.find? (fun p => p.1 == k)).map (fun p => p.2)

/-- Dictionary `del` (no-op when the key is absent; the Python code only
deletes under an `in` guard). -/
def alErase {α : Type} (l : List (Nat × α)) (k : Nat) : List (Nat × α) :=
  l.filter (fun p => p.1 != k)

/-- Dictionary assignment. -/
def alSet {α : Type} (l : List (Nat × α)) (k : Nat) (v : α) : List (Nat × α) :=
  (k, v) :: alErase l k

/-- `TaskService.get_task`: select by primary key. -/
def getTask (st : SysState) (tid : Nat) : Option Task :=
  st.tasks.find? (fun t => t.id == tid)

/-- The persisted status of a task (none when the row is missing). -/
def statusOf (st : SysState) (tid : Nat) : Option TaskStatus :=
  (getTask st tid).map Task.status

/-- `TaskService.update_task_status`: set status (and `updated_at`);
`process_id` is written only when a pid is supplied. -/
def updateTaskStatus (st : SysState) (tid : Nat) (s : TaskStatus)
    (pid : Option Nat) (now : DateTime) : SysState :=
  { st with tasks := st.tasks.map (fun t =>
      if t.id == tid then
        { t with status := s,
                 processId := match pid with
                   | some p => some p
                   | Option.none => t.processId,
                 updatedAt := now }
      else t) }

/-- `LogService.create_log_entry`: insert an open entry, returning its
fresh id. -/
def createLogEntry (st : SysState) (tid : Nat) (path : String)
    (now : DateTime) : SysState × Nat :=
  ({ st with
      logEntries := ⟨st.nextEntryId, tid, path, now, Option.none⟩ :: st.logEntries,
      nextEntryId := st.nextEntryId + 1 },
    st.nextEntryId)

/-- `LogService.end_log_entry`: set `end_time` on the (first) entry with
the given id — `scalar_one_or_none` assumes ids are unique. -/
def setEntryEnd (eid : Nat) (now : DateTime) : List LogEntry → List LogEntry
  | [] => []
  | e :: es =>
      if e.id == eid then { e with endTime := some now } :: es
      else e :: setEntryEnd eid now es

/-- `end_log_entry` lifted to the system state. -/
def endLogEntry (st : SysState) (eid : Nat) (now : DateTime) : SysState :=
  { st with logEntries := setEntryEnd eid now st.logEntries }

/-- `LogService.get_task_logs`: the task's entries, newest first. -/
def getTaskLogs (st : SysState) (tid : Nat) : List LogEntry :=
  st.logEntries.filter (fun e => e.taskId == tid)

/-- Retention count of `LogService.cleanup_old_logs` (`max_files = 7`). -/
def MAX_LOG_FILES : Nat := 7

/-- `LogService.cleanup_old_logs`: beyond the retention count, delete the
oldest entries together with their backing files. -/
def cleanupOldLogs (st : SysState) (tid : Nat) : SysState :=
  let logs := getTaskLogs st tid
  if MAX_LOG_FILES < logs.length then
    let logsToDelete := logs.drop MAX_LOG_FILES
    let delIds := logsToDelete.map (fun e => e.id)
    let delPaths := logsToDelete.map (fun e => e.logFilePath)
    { st with
        fileSystem := st.fileSystem.filter (fun p => !delPaths.contains p),
        logEntries := st.logEntries.filter (fun e => !delIds.contains e.id) }
  else st

/-- The scheduler's recurring pattern
`if task_id in self.task_log_entries: end_log_entry(...); del ...`. -/
def endTrackedLogEntry (st : SysState) (tid : Nat) (now : DateTime) : SysState :=
  match alGet st.taskLogEntries tid with
  | some eid =>
      let st1 := endLogEntry st eid now
      { st1 with taskLogEntries := alErase st1.taskLogEntries tid }
  | Option.none => st

/-- `LogService.generate_log_file_path`'s sanitization: keep only
alphanumerics, space, hyphen, underscore; strip trailing whitespace;
replace spaces by underscores (ASCII approximation of `str.isalnum`). -/
def sanitizeTaskName (name : String) : String :=
  let kept := name.data.filter (fun c =>
    c.isAlphanum || c = ' ' || c = '-' || c = '_')
  let stripped := (kept.reverse.dropWhile (fun c => c = ' ')).reverse
  String.mk (stripped.map (fun c => if c = ' ' then '_' else c))

/-- Zero-padded two-digit rendering. -/
def pad2 (n : Nat) : String :=
  if n < 10 then "0" ++ toString n else toString n

/-- Zero-padded four-digit rendering. -/
def pad4 (n : Nat) : String :=
  if n < 10 then "000" ++ toString n
  else if n < 100 then "00" ++ toString n
  else if n < 1000 then "0" ++ toString n
  else toString n

/-- `LogService.generate_log_file_path` with `part = 1` (the only call
the scheduler makes): `task_<id>_<sanitized>_<YYYYMMDD>_<HHMMSS>.txt`
under the log directory. -/
def generateLogFilePath (tid : Nat) (name : String) (now : DateTime) : String :=
  "logs/task_" ++ toString tid ++ "_" ++ sanitizeTaskName name ++ "_" ++
    pad4 now.year ++ pad2 now.month ++ pad2 now.day ++ "_" ++
    pad2 now.hour ++ pad2 now.minute ++ pad2 now.second ++ ".txt"

/-- Create the file if it does not exist yet (`os.path.exists` guard
around `open(..., 'w')`). -/
def ensureFile (fs : List String) (p : String) : List String :=
  if fs.contains p then fs else p :: fs

/-! ### `TaskScheduler.stop_task` and the `/tasks/{id}/stop` route -/

/-- `stop_task` (scheduler.py lines 623-678): missing task → `False`;
otherwise terminate the process tree if a supervisor entry exists (tree
termination is OS-side; its bookkeeping effect is removing the entry),
set the status to `stopped` (the `None` pid argument leaves `process_id`
unwritten), close the tracked log entry, purge old logs, and return
`True`. -/
def stopTask (st : SysState) (tid : Nat) (now : DateTime) : SysState × Bool :=
  match getTask st tid with
  | Option.none => (st, false)
  | some _ =>
      let st1 :=
        if st.runningProcesses.contains tid then
          { st with runningProcesses := st.runningProcesses.filter (fun i => i != tid) }
        else st
      let st2 := updateTaskStatus st1 tid TaskStatus.stopped Option.none now
      let st3 := endTrackedLogEntry st2 tid now
      let st4 := cleanupOldLogs st3 tid
      (st4, true)

/-- Outcome of an API route: success or an `HTTPException` status. -/
inductive ApiResult where
  | ok
  | httpError (code : Nat)
deriving DecidableEq

/-- `api/routes/tasks.py` `stop_task` (lines 176-211): 404 when the task
is missing, 400 (`"任务未在运行中"`) when its status is not `running`,
500 when the scheduler's `stop_task` reports failure. -/
def apiStopTask (st : SysState) (tid : Nat) (now : DateTime) : SysState × ApiResult :=
  match getTask st tid with
  | Option.none => (st, ApiResult.httpError 404)
  | some task =>
      if task.status ≠ TaskStatus.running then (st, ApiResult.httpError 400)
      else
        let r := stopTask st tid now
        if r.2 then (r.1, ApiResult.ok) else (r.1, ApiResult.httpError 500)

/-! ### `TaskScheduler._execute_task` -/

/-- The environment a single execution run observes: whether
`utils/log_wrapper.py` exists on disk, whether the 1-second grace-period
probe (`process.poll()`) finds the wrapper already exited (and with what
code), the pid the OS assigned, and the wall clock. -/
structure ExecEnv where
  wrapperExists : Bool
  earlyExit : Option Int
  pid : Nat
  now : DateTime

/-- How one `_execute_task` run ended. -/
inductive ExecResult where
  | notFound
  | alreadyRunning
  | pastEndDate
  | launched
  | failedEarlyExit (code : Int)
  | failedWrapperMissing
deriving DecidableEq

/-- `_execute_task` lines 308-327: a recurring task whose `start_time`
and `end_time` fall on different calendar dates is cut off once the
current date is strictly past `end_time`'s date. -/
def pastEndDateCutoff (task : Task) (now : DateTime) : Bool :=
  match task.endTime with
  | some e =>
      task.repeatType ≠ RepeatType.none ∧
        task.startTime.date ≠ e.date ∧ Date.ltb e.date now.date
  | Option.none => false

/-- The `except` handler of `_execute_task` (lines 576-621): write the
failure detail into the current (or a freshly created) log file, mark the
task failed, close the tracked log entry if still tracked, and drop any
supervisor entry (terminating the process if it is still alive). -/
def handleLaunchFailure (st : SysState) (tid : Nat) (task : Task)
    (now : DateTime) : SysState :=
  let logPath :=
    match alGet st.taskLogFiles tid with
    | some p => p
    | Option.none => generateLogFilePath tid task.name now
  let st1 := { st with fileSystem := ensureFile st.fileSystem logPath }
  let st2 := updateTaskStatus st1 tid TaskStatus.failed Option.none now
  let st3 := endTrackedLogEntry st2 tid now
  { st3 with runningProcesses := st3.runningProcesses.filter (fun i => i != tid) }

/-- The launch preamble of `_execute_task` (lines 329-360): mark the
task running, pre-create the log file, create the open log entry, and
record its id and path in the scheduler's two dictionaries. -/
def execPreamble (env : ExecEnv) (st : SysState) (tid : Nat) (task : Task) : SysState :=
  let st1 := updateTaskStatus st tid TaskStatus.running Option.none env.now
  let logPath := generateLogFilePath tid task.name env.now
  let st2 := { st1 with fileSystem := ensureFile st1.fileSystem logPath }
  let p3 := createLogEntry st2 tid logPath env.now
  { p3.1 with
    taskLogEntries := alSet p3.1.taskLogEntries tid p3.2,
    taskLogFiles := alSet p3.1.taskLogFiles tid logPath }

/-- The in-branch cleanup of `_execute_task`'s early-exit detection
(lines 534-546): mark the task failed, close the tracked log entry, and
drop any supervisor entry — all before the `raise` hands control to the
generic failure handler. -/
def earlyExitCleanup (env : ExecEnv) (st : SysState) (tid : Nat) (task : Task) : SysState :=
  let st5 := updateTaskStatus (execPreamble env st tid task) tid
    TaskStatus.failed Option.none env.now
  let st6 := endTrackedLogEntry st5 tid env.now
  { st6 with runningProcesses := st6.runningProcesses.filter (fun i => i != tid) }

/-- `_execute_task` (lines 289-621): short-circuit on a missing or
already-running task; apply the end-date cutoff (removing both timers);
otherwise run the launch preamble, then either fail because the wrapper
script is missing (raises `FileNotFoundError` into the handler), fail
because the process exited within the grace period (explicit cleanup, then
the `raise` lands in the same handler), or record the live process and
pid. -/
def executeTask (env : ExecEnv) (st : SysState) (tid : Nat) : SysState × ExecResult :=
  match getTask st tid with
  | Option.none => (st, ExecResult.notFound)
  | some task =>
      if task.status = TaskStatus.running then (st, ExecResult.alreadyRunning)
      else if pastEndDateCutoff task env.now then
        let jobs1 := removeJobIfPresent st.jobs (taskJobId tid)
        let jobs2 := removeJobIfPresent jobs1 (stopJobId tid)
        ({ st with jobs := jobs2 }, ExecResult.pastEndDate)
      else
        let st4 := execPreamble env st tid task
        if env.wrapperExists = false then
          (handleLaunchFailure st4 tid task env.now, ExecResult.failedWrapperMissing)
        else
          match env.earlyExit with
          | some code =>
              (handleLaunchFailure (earlyExitCleanup env st tid task) tid task env.now,
                ExecResult.failedEarlyExit code)
          | Option.none =>
              let st5 := { st4 with
                runningProcesses := tid :: st4.runningProcesses.filter (fun i => i != tid) }
              let st6 := updateTaskStatus st5 tid TaskStatus.running (some env.pid) env.now
              (st6, ExecResult.launched)

/-! ### `TaskScheduler._monitor_tasks` -/

/-- What one reconciliation sweep observes per supervised task: the
non-blocking `process.poll()` result, and the newest on-disk log file for
the task (`glob` + sort by mtime — abstracted as its result). -/
structure MonitorEnv where
  exitCode : Nat → Option Int
  newestLogFile : Nat → Option String
  now : DateTime

/-- The exited-process arm of the `_monitor_tasks` loop body (lines
703-728): classify by exit code (zero → completed, otherwise failed),
close the tracked log entry, release the recorded log-file path and the
supervisor entry. -/
def reapExitedProcess (env : MonitorEnv) (st : SysState) (tid : Nat)
    (code : Int) : SysState :=
  let st1 := updateTaskStatus st tid
    (if code = 0 then TaskStatus.completed else TaskStatus.failed)
    Option.none env.now
  let st2 := endTrackedLogEntry st1 tid env.now
  let st3 := { st2 with taskLogFiles := alErase st2.taskLogFiles tid }
  { st3 with runningProcesses := st3.runningProcesses.filter (fun i => i != tid) }

/-- The still-running arm of the `_monitor_tasks` loop body (lines
733-776): adopt the newest on-disk log file (create an entry when it is
unknown to the database, then detect out-of-band rotation against the
recorded current file). -/
def adoptNewestLog (env : MonitorEnv) (st : SysState) (tid : Nat) : SysState :=
  match env.newestLogFile tid with
  | Option.none => st
  | some latest =>
      let existingPaths := (getTaskLogs st tid).map (fun e => e.logFilePath)
      let st1 :=
        if existingPaths.contains latest = false then
          let p := createLogEntry st tid latest env.now
          { p.1 with
            taskLogEntries := alSet p.1.taskLogEntries tid p.2,
            taskLogFiles := alSet p.1.taskLogFiles tid latest }
        else st
      match alGet st1.taskLogFiles tid with
      | some cur =>
          if cur ≠ latest then
            let st2 := { st1 with taskLogFiles := alSet st1.taskLogFiles tid latest }
            match (getTaskLogs st2 tid).find? (fun e => e.logFilePath == latest) with
            | some e => { st2 with taskLogEntries := alSet st2.taskLogEntries tid e.id }
            | Option.none => st2
          else st1
      | Option.none => st1

/-- One iteration of the `_monitor_tasks` loop body for task `tid`
(lines 700-776). -/
def monitorOne (env : MonitorEnv) (st : SysState) (tid : Nat) : SysState :=
  match env.exitCode tid with
  | some code => reapExitedProcess env st tid code
  | Option.none => adoptNewestLog env st tid

/-- `_monitor_tasks`: iterate the loop body over a snapshot of the
supervisor table's keys (`list(self.running_processes.items())`). -/
def monitorTasks (env : MonitorEnv) (st : SysState) : SysState :=
  st.runningProcesses.foldl (monitorOne env) st

/-! ### `update_task` route (`api/routes/tasks.py` lines 75-109) -/

/-- `schemas/task.py` `TaskUpdate`: every field optional; `none` means
the request did not specify the field (the route's `is None` check
conflates an explicit JSON `null` with an absent field, and we model the
same conflation). -/
structure TaskUpdate where
  name : Option String
  activateEnvCommand : Option String
  mainProgramCommand : Option String
  repeatType : Option RepeatType
  startTime : Option DateTime
  endTime : Option DateTime
  status : Option TaskStatus

/-- Whether the update carries any field (`model_dump(exclude_unset=True)`
being non-empty). -/
def TaskUpdate.anyField (u : TaskUpdate) : Bool :=
  u.name.isSome || u.activateEnvCommand.isSome || u.mainProgramCommand.isSome ||
    u.repeatType.isSome || u.startTime.isSome || u.endTime.isSome || u.status.isSome

/-- `TaskService.update_task`: apply the provided fields and stamp
`updated_at`; an empty update leaves the row untouched. -/
def applyTaskUpdate (t : Task) (u : TaskUpdate) (now : DateTime) : Task :=
  if u.anyField then
    { t with
        name := u.name.getD t.name,
        activateEnvCommand := u.activateEnvCommand.getD t.activateEnvCommand,
        mainProgramCommand := u.mainProgramCommand.getD t.mainProgramCommand,
        repeatType := u.repeatType.getD t.repeatType,
        startTime := u.startTime.getD t.startTime,
        endTime := match u.endTime with
          | some e => some e
          | Option.none => t.endTime,
        status := u.status.getD t.status,
        updatedAt := now }
  else t

/-- The `update_task` route: when the current status is failed, completed
or stopped and the request does not specify a status, inject
`status := pending` into the update; then apply it and reschedule
(returned flag).  The 404 branches are outside this happy path. -/
def routeUpdateTask (t : Task) (u : TaskUpdate) (now : DateTime) : Task × Bool :=
  let u1 :=
    if (t.status = TaskStatus.failed ∨ t.status = TaskStatus.completed ∨
          t.status = TaskStatus.stopped) ∧ u.status = Option.none
    then { u with status := some TaskStatus.pending }
    else u
  (applyTaskUpdate t u1 now, true)

/-! ### Helper lemmas about the state operations -/

theorem find?_map_update (upd : Task → Task) (hid : ∀ t, (upd t).id = t.id)
    (ts : List Task) (tid : Nat) :
    (ts.map (fun t => if t.id == tid then upd t else t)).find?
        (fun t => t.id == tid) =
      (ts.find? (fun t => t.id == tid)).map upd := by
  induction ts with
  | nil => rfl
  | cons t ts ih =>
      cases h : (t.id == tid) with
      | true =>
          have hp : (fun x : Task => x.id == tid) (upd t) = true := by
            show ((upd t).id == tid) = true
            rw [hid]; exact h
          simp only [List.map_cons, h, if_true]
          rw [@List.find?_cons_of_pos _ (fun x : Task => x.id == tid) (upd t) _ hp,
            @List.find?_cons_of_pos _ (fun x : Task => x.id == tid) t _ h]
          rfl
      | false =>
          have hp : ¬ ((fun x : Task => x.id == tid) t = true) := by simp [h]
          simp only [List.map_cons, h, Bool.false_eq_true, if_false]
          rw [@List.find?_cons_of_neg _ (fun x : Task => x.id == tid) t _ hp,
            @List.find?_cons_of_neg _ (fun x : Task => x.id == tid) t _ hp]
          exact ih

theorem getTask_updateTaskStatus (st : SysState) (tid : Nat) (s : TaskStatus)
    (pid : Option Nat) (now : DateTime) :
    getTask (updateTaskStatus st tid s pid now) tid =
      (getTask st tid).map (fun t =>
        { t with status := s,
                 processId := match pid with
                   | some p => some p
                   | Option.none => t.processId,
                 updatedAt := now }) := by
  unfold getTask updateTaskStatus
  dsimp only
  exact find?_map_update (fun t =>
    { t with status := s,
             processId := match pid with
               | some p => some p
               | Option.none => t.processId,
             updatedAt := now }) (fun t => rfl) st.tasks tid

theorem statusOf_updateTaskStatus (st : SysState) (tid : Nat) (s : TaskStatus)
    (pid : Option Nat) (now : DateTime) (task : Task)
    (hget : getTask st tid = some task) :
    statusOf (updateTaskStatus st tid s pid now) tid = some s := by
  unfold statusOf
  rw [getTask_updateTaskStatus, hget]
  rfl

theorem statusOf_congr (st st' : SysState) (tid : Nat)
    (h : st.tasks = st'.tasks) : statusOf st tid = statusOf st' tid := by
  unfold statusOf getTask
  rw [h]

theorem endTrackedLogEntry_tasks (st : SysState) (tid : Nat) (now : DateTime) :
    (endTrackedLogEntry st tid now).tasks = st.tasks := by
  unfold endTrackedLogEntry endLogEntry
  cases alGet st.taskLogEntries tid <;> rfl

theorem endTrackedLogEntry_runningProcesses (st : SysState) (tid : Nat)
    (now : DateTime) :
    (endTrackedLogEntry st tid now).runningProcesses = st.runningProcesses := by
  unfold endTrackedLogEntry endLogEntry
  cases alGet st.taskLogEntries tid <;> rfl

theorem cleanupOldLogs_tasks (st : SysState) (tid : Nat) :
    (cleanupOldLogs st tid).tasks = st.tasks := by
  unfold cleanupOldLogs
  dsimp only
  split <;> rfl

theorem cleanupOldLogs_runningProcesses (st : SysState) (tid : Nat) :
    (cleanupOldLogs st tid).runningProcesses = st.runningProcesses := by
  unfold cleanupOldLogs
  dsimp only
  split <;> rfl

/-! ### Claim theorems: update route and stop -/

/-- C10: an external update request that does not specify a status resets
a failed/completed/stopped task to pending before the update is applied,
while a request that does specify a status leaves the chosen status in
effect; in both cases the route reschedules the task. -/
theorem C10_update_resets_terminal_status (t : Task) (u : TaskUpdate)
    (now : DateTime) :
    (routeUpdateTask t u now).1.status =
      (match u.status with
        | some s => s
        | Option.none =>
            if t.status = TaskStatus.failed ∨ t.status = TaskStatus.completed ∨
                t.status = TaskStatus.stopped
            then TaskStatus.pending
            else t.status) ∧
    (routeUpdateTask t u now).2 = true := by
  cases hs : u.status with
  | some s =>
      have hcond : ¬ ((t.status = TaskStatus.failed ∨
          t.status = TaskStatus.completed ∨ t.status = TaskStatus.stopped) ∧
          u.status = Option.none) := by
        simp [hs]
      simp only [routeUpdateTask]
      rw [if_neg hcond]
      refine ⟨?_, trivial⟩
      have ha : u.anyField = true := by
        simp [TaskUpdate.anyField, hs]
      simp only [applyTaskUpdate]
      rw [if_pos ha]
      simp [hs]
  | none =>
      by_cases hts : t.status = TaskStatus.failed ∨
          t.status = TaskStatus.completed ∨ t.status = TaskStatus.stopped
      · simp only [routeUpdateTask]
        rw [if_pos ⟨hts, hs⟩]
        refine ⟨?_, trivial⟩
        have ha : ({ u with status := some TaskStatus.pending } : TaskUpdate).anyField = true := by
          simp [TaskUpdate.anyField]
        simp only [applyTaskUpdate]
        rw [if_pos ha]
        simp [hts]
      · simp only [routeUpdateTask]
        rw [if_neg (fun h => hts h.1)]
        refine ⟨?_, trivial⟩
        simp only [applyTaskUpdate]
        by_cases ha : u.anyField = true
        · rw [if_pos ha]
          simp [hs, hts]
        · rw [if_neg ha]
          simp [hts]

/-- Concrete state for C2: task 1 has completed, no supervisor entry
exists for it, and one closed log entry is on record. -/
def dtC2 : DateTime := ⟨2025, 6, 1, 12, 0, 0⟩

def exTaskC2 : Task :=
  { id := 1, name := "t", activateEnvCommand := "source env.sh",
    mainProgramCommand := "python run.py", repeatType := RepeatType.none,
    startTime := ⟨2025, 6, 1, 8, 0, 0⟩, endTime := Option.none,
    status := TaskStatus.completed, processId := Option.none,
    createdAt := dtC2, updatedAt := dtC2 }

def exStateC2 : SysState :=
  { tasks := [exTaskC2],
    logEntries := [⟨1, 1, "logs/a.txt", dtC2, some dtC2⟩],
    nextEntryId := 2, jobs := emptyJobTable, runningProcesses := [],
    taskLogEntries := [], taskLogFiles := [], fileSystem := ["logs/a.txt"] }

/-- C2 (counterexample): stopping task 1, which is not running, does not
leave state unchanged and is not reported as a non-error "already
stopped": the scheduler's `stop_task` flips the status from completed to
stopped (returning `True`), and the API route rejects the request with
HTTP 400 instead of succeeding. -/
theorem C2_counterexample :
    statusOf exStateC2 1 = some TaskStatus.completed ∧
      exStateC2.runningProcesses.contains 1 = false ∧
      (stopTask exStateC2 1 dtC2).2 = true ∧
      statusOf (stopTask exStateC2 1 dtC2).1 1 = some TaskStatus.stopped ∧
      (apiStopTask exStateC2 1 dtC2).2 = ApiResult.httpError 400 := by
  decide

/-- C2 (amended): for a task that is not currently running (no supervisor
entry), the API stop route rejects the request with HTTP 400 ("not
running"); the scheduler-level `stop_task`, if invoked directly, is not a
no-op: it still sets the task's status to stopped, closes the tracked log
entry if any, purges log entries beyond the retention count, and reports
success (`True`); the supervisor table itself is unchanged. -/
theorem C2_stop_not_running (st : SysState) (tid : Nat) (now : DateTime)
    (task : Task)
    (hget : getTask st tid = some task)
    (hnr : st.runningProcesses.contains tid = false) :
    (stopTask st tid now).2 = true ∧
      statusOf (stopTask st tid now).1 tid = some TaskStatus.stopped ∧
      (stopTask st tid now).1.runningProcesses = st.runningProcesses ∧
      (task.status ≠ TaskStatus.running →
        apiStopTask st tid now = (st, ApiResult.httpError 400)) := by
  unfold stopTask
  simp only [hget, hnr, Bool.false_eq_true, if_false]
  refine ⟨trivial, ?_, ?_, ?_⟩
  · rw [statusOf_congr _ _ tid (cleanupOldLogs_tasks _ _),
      statusOf_congr _ _ tid (endTrackedLogEntry_tasks _ _ _)]
    exact statusOf_updateTaskStatus st tid TaskStatus.stopped Option.none now task hget
  · rw [cleanupOldLogs_runningProcesses, endTrackedLogEntry_runningProcesses]
    rfl
  · intro h
    unfold apiStopTask
    simp only [hget]
    rw [if_pos h]

theorem C2_stop_not_running_witness :
    (stopTask exStateC2 1 dtC2).2 = true ∧
      statusOf (stopTask exStateC2 1 dtC2).1 1 = some TaskStatus.stopped ∧
      (stopTask exStateC2 1 dtC2).1.runningProcesses = exStateC2.runningProcesses ∧
      (exTaskC2.status ≠ TaskStatus.running →
        apiStopTask exStateC2 1 dtC2 = (exStateC2, ApiResult.httpError 400)) :=
  C2_stop_not_running exStateC2 1 dtC2 exTaskC2 (by decide) (by decide)

/-! ### Claim theorem: end-date cutoff (C8) -/

/-- C8: for a recurring task whose start and end times fall on different
calendar dates, once the current date is strictly after `end_time`'s
date a fire reaching `_execute_task` launches no process (the supervisor
table is untouched and the result is not `launched`), and — whenever the
duplicate-fire short-circuit does not intervene — both the task's fire
timer and its stop timer are removed from the scheduler. -/
theorem C8_end_date_cutoff (env : ExecEnv) (st : SysState) (tid : Nat)
    (task : Task) (e : DateTime)
    (hget : getTask st tid = some task)
    (hrep : task.repeatType ≠ RepeatType.none)
    (hend : task.endTime = some e)
    (hdates : task.startTime.date ≠ e.date)
    (hpast : Date.ltb e.date env.now.date = true) :
    (executeTask env st tid).2 ≠ ExecResult.launched ∧
      (executeTask env st tid).1.runningProcesses = st.runningProcesses ∧
      (task.status ≠ TaskStatus.running →
        (executeTask env st tid).1.jobs (taskJobId tid) = Option.none ∧
        (executeTask env st tid).1.jobs (stopJobId tid) = Option.none) := by
  have hcut : pastEndDateCutoff task env.now = true := by
    simp [pastEndDateCutoff, hend, hrep, hdates, hpast]
  unfold executeTask
  simp only [hget]
  by_cases hrun : task.status = TaskStatus.running
  · rw [if_pos hrun]
    exact ⟨by simp, rfl, fun h => absurd hrun h⟩
  · rw [if_neg hrun]
    simp only [hcut, if_true]
    refine ⟨by simp, trivial, fun _ => ⟨?_, ?_⟩⟩
    · rw [removeJobIfPresent_apply, removeJobIfPresent_apply]
      simp [taskJobId_ne_stopJobId tid]
    · rw [removeJobIfPresent_apply]
      simp

/-- Concrete data for the C8 witness: a daily task whose bounded end
date (2025-06-30) lies before "now" (2025-07-10). -/
def exTaskC8 : Task :=
  { id := 3, name := "r", activateEnvCommand := "source env.sh",
    mainProgramCommand := "python loop.py", repeatType := RepeatType.daily,
    startTime := ⟨2025, 6, 1, 9, 0, 0⟩, endTime := some ⟨2025, 6, 30, 18, 0, 0⟩,
    status := TaskStatus.pending, processId := Option.none,
    createdAt := ⟨2025, 5, 1, 0, 0, 0⟩, updatedAt := ⟨2025, 5, 1, 0, 0, 0⟩ }

def envC8 : ExecEnv :=
  { wrapperExists := true, earlyExit := Option.none, pid := 42,
    now := ⟨2025, 7, 10, 9, 0, 0⟩ }

def exStateC8 : SysState :=
  { tasks := [exTaskC8], logEntries := [], nextEntryId := 1,
    jobs := emptyJobTable, runningProcesses := [], taskLogEntries := [],
    taskLogFiles := [], fileSystem := [] }

theorem C8_end_date_cutoff_witness :
    (executeTask envC8 exStateC8 3).2 ≠ ExecResult.launched ∧
      (executeTask envC8 exStateC8 3).1.runningProcesses = exStateC8.runningProcesses ∧
      (exTaskC8.status ≠ TaskStatus.running →
        (executeTask envC8 exStateC8 3).1.jobs (taskJobId 3) = Option.none ∧
        (executeTask envC8 exStateC8 3).1.jobs (stopJobId 3) = Option.none) :=
  C8_end_date_cutoff envC8 exStateC8 3 exTaskC8 ⟨2025, 6, 30, 18, 0, 0⟩
    (by decide) (by decide) rfl (by decide) (by decide)

/-! ### Helper lemmas for the launch-failure paths (C5, C9) -/

theorem contains_filter_ne_self (l : List Nat) (tid : Nat) :
    (l.filter (fun i => i != tid)).contains tid = false := by
  induction l with
  | nil => rfl
  | cons a l ih =>
      by_cases h : a = tid
      · subst h
        simp only [List.filter_cons, bne_self_eq_false, Bool.false_eq_true, if_false]
        exact ih
      · have hne : (a != tid) = true := by simp [h]
        simp [List.filter_cons, hne, List.contains_cons, ih, Ne.symm h]

theorem alGet_alErase_self {α : Type} (l : List (Nat × α)) (k : Nat) :
    alGet (alErase l k) k = Option.none := by
  unfold alGet alErase
  induction l with
  | nil => rfl
  | cons p l ih =>
      by_cases h : p.1 = k
      · simp only [List.filter_cons, h, bne_self_eq_false, Bool.false_eq_true, if_false]
        exact ih
      · have hne : (p.1 != k) = true := by simp [h]
        have hpk : (p.1 == k) = false := by simp [h]
        simp only [List.filter_cons, hne, if_true, List.find?_cons, hpk]
        exact ih

theorem alGet_alSet_self {α : Type} (l : List (Nat × α)) (k : Nat) (v : α) :
    alGet (alSet l k v) k = some v := by
  unfold alSet
  show alGet ((k, v) :: alErase l k) k = some v
  unfold alGet
  rw [List.find?_cons_of_pos _ (by simp)]
  rfl

/-- Projections of `updateTaskStatus` that it does not touch. -/
theorem updateTaskStatus_taskLogEntries (st : SysState) (tid : Nat)
    (s : TaskStatus) (pid : Option Nat) (now : DateTime) :
    (updateTaskStatus st tid s pid now).taskLogEntries = st.taskLogEntries := rfl

theorem updateTaskStatus_logEntries (st : SysState) (tid : Nat)
    (s : TaskStatus) (pid : Option Nat) (now : DateTime) :
    (updateTaskStatus st tid s pid now).logEntries = st.logEntries := rfl

/-- `execPreamble` only touches the fields the launch preamble writes;
its effect on the ones the claims read. -/
theorem execPreamble_getTask (env : ExecEnv) (st : SysState) (tid : Nat) (task : Task) :
    getTask (execPreamble env st tid task) tid =
      getTask (updateTaskStatus st tid TaskStatus.running Option.none env.now) tid := rfl

theorem execPreamble_taskLogEntries (env : ExecEnv) (st : SysState) (tid : Nat) (task : Task) :
    alGet (execPreamble env st tid task).taskLogEntries tid = some st.nextEntryId := by
  unfold execPreamble
  dsimp only
  exact alGet_alSet_self _ tid st.nextEntryId

theorem execPreamble_logEntries (env : ExecEnv) (st : SysState) (tid : Nat) (task : Task) :
    (execPreamble env st tid task).logEntries =
      ⟨st.nextEntryId, tid, generateLogFilePath tid task.name env.now,
        env.now, Option.none⟩ :: st.logEntries := rfl

/-- The effect of `endTrackedLogEntry` on the log-entry table. -/
theorem endTrackedLogEntry_logEntries (st : SysState) (tid : Nat) (now : DateTime) :
    (endTrackedLogEntry st tid now).logEntries =
      (match alGet st.taskLogEntries tid with
        | some eid => setEntryEnd eid now st.logEntries
        | Option.none => st.logEntries) := by
  unfold endTrackedLogEntry endLogEntry
  cases h : alGet st.taskLogEntries tid <;> rfl

theorem endTrackedLogEntry_taskLogEntries_self (st : SysState) (tid : Nat)
    (now : DateTime) :
    alGet (endTrackedLogEntry st tid now).taskLogEntries tid = Option.none := by
  unfold endTrackedLogEntry endLogEntry
  cases h : alGet st.taskLogEntries tid with
  | some eid => exact alGet_alErase_self _ tid
  | none => exact h

/-- What the generic failure handler guarantees, independently of how
the state it receives was built. -/
theorem handleLaunchFailure_tasks (st : SysState) (tid : Nat) (task : Task)
    (now : DateTime) :
    (handleLaunchFailure st tid task now).tasks =
      (updateTaskStatus st tid TaskStatus.failed Option.none now).tasks := by
  unfold handleLaunchFailure endTrackedLogEntry endLogEntry updateTaskStatus
  dsimp only
  cases h : alGet st.taskLogEntries tid <;> rfl

theorem handleLaunchFailure_statusOf (st : SysState) (tid : Nat) (task : Task)
    (now : DateTime) (t0 : Task) (hget : getTask st tid = some t0) :
    statusOf (handleLaunchFailure st tid task now) tid = some TaskStatus.failed := by
  have h := statusOf_updateTaskStatus st tid TaskStatus.failed Option.none now t0 hget
  unfold statusOf getTask at h ⊢
  rw [handleLaunchFailure_tasks]
  exact h

theorem handleLaunchFailure_runningContains (st : SysState) (tid : Nat)
    (task : Task) (now : DateTime) :
    (handleLaunchFailure st tid task now).runningProcesses.contains tid = false := by
  unfold handleLaunchFailure endTrackedLogEntry endLogEntry updateTaskStatus
  dsimp only
  cases h : alGet st.taskLogEntries tid <;> exact contains_filter_ne_self _ tid

theorem handleLaunchFailure_taskLogEntries (st : SysState) (tid : Nat)
    (task : Task) (now : DateTime) :
    alGet (handleLaunchFailure st tid task now).taskLogEntries tid = Option.none := by
  unfold handleLaunchFailure endTrackedLogEntry endLogEntry updateTaskStatus
  dsimp only
  cases h : alGet st.taskLogEntries tid with
  | some eid => exact alGet_alErase_self _ tid
  | none => exact h

theorem handleLaunchFailure_logEntries (st : SysState) (tid : Nat)
    (task : Task) (now : DateTime) :
    (handleLaunchFailure st tid task now).logEntries =
      (match alGet st.taskLogEntries tid with
        | some eid => setEntryEnd eid now st.logEntries
        | Option.none => st.logEntries) := by
  unfold handleLaunchFailure endTrackedLogEntry endLogEntry updateTaskStatus
  dsimp only
  cases h : alGet st.taskLogEntries tid <;> rfl

/-- Closing an entry by the id the head carries rewrites just the head. -/
theorem setEntryEnd_cons_self (e : LogEntry) (es : List LogEntry) (now : DateTime) :
    setEntryEnd e.id now (e :: es) = { e with endTime := some now } :: es := by
  show (if (e.id == e.id) = true then _ else _) = _
  rw [if_pos (by simp)]

theorem handleLaunchFailure_statusOf_isSome (st : SysState) (tid : Nat)
    (task : Task) (now : DateTime)
    (hsome : (getTask st tid).isSome = true) :
    statusOf (handleLaunchFailure st tid task now) tid = some TaskStatus.failed := by
  obtain ⟨t0, ht0⟩ := Option.isSome_iff_exists.mp hsome
  exact handleLaunchFailure_statusOf st tid task now t0 ht0

theorem earlyExitCleanup_getTask (env : ExecEnv) (st : SysState) (tid : Nat)
    (task : Task) :
    getTask (earlyExitCleanup env st tid task) tid =
      getTask (updateTaskStatus (execPreamble env st tid task) tid
        TaskStatus.failed Option.none env.now) tid := by
  unfold earlyExitCleanup getTask
  dsimp only
  rw [endTrackedLogEntry_tasks]

theorem earlyExitCleanup_taskLogEntries (env : ExecEnv) (st : SysState)
    (tid : Nat) (task : Task) :
    alGet (earlyExitCleanup env st tid task).taskLogEntries tid = Option.none := by
  unfold earlyExitCleanup
  dsimp only
  exact endTrackedLogEntry_taskLogEntries_self _ tid env.now

theorem earlyExitCleanup_logEntries (env : ExecEnv) (st : SysState)
    (tid : Nat) (task : Task) :
    (earlyExitCleanup env st tid task).logEntries =
      ⟨st.nextEntryId, tid, generateLogFilePath tid task.name env.now,
        env.now, some env.now⟩ :: st.logEntries := by
  unfold earlyExitCleanup
  dsimp only
  rw [endTrackedLogEntry_logEntries, updateTaskStatus_taskLogEntries,
    execPreamble_taskLogEntries]
  dsimp only
  rw [updateTaskStatus_logEntries, execPreamble_logEntries]
  exact setEntryEnd_cons_self
    ⟨st.nextEntryId, tid, generateLogFilePath tid task.name env.now,
      env.now, Option.none⟩ st.logEntries env.now

/-! ### Claim theorems: launch-failure paths (C5, C9) -/

/-- C5: when the spawned wrapper process is found to have already exited
at the grace-period probe — whatever its exit code, zero included — the
launch is classified as a failure: the task's status is failed, the
supervisor holds no process entry for the task, the scheduler no longer
tracks a current log entry for it, and the log entry created by this run
is closed. -/
theorem C5_early_exit_failure (env : ExecEnv) (st : SysState) (tid : Nat)
    (task : Task) (code : Int)
    (hget : getTask st tid = some task)
    (hrun : task.status ≠ TaskStatus.running)
    (hcut : pastEndDateCutoff task env.now = false)
    (hw : env.wrapperExists = true)
    (hx : env.earlyExit = some code) :
    (executeTask env st tid).2 = ExecResult.failedEarlyExit code ∧
      statusOf (executeTask env st tid).1 tid = some TaskStatus.failed ∧
      (executeTask env st tid).1.runningProcesses.contains tid = false ∧
      alGet (executeTask env st tid).1.taskLogEntries tid = Option.none ∧
      (executeTask env st tid).1.logEntries.head? = some
        ⟨st.nextEntryId, tid, generateLogFilePath tid task.name env.now,
          env.now, some env.now⟩ := by
  have hred : executeTask env st tid =
      (handleLaunchFailure (earlyExitCleanup env st tid task) tid task env.now,
        ExecResult.failedEarlyExit code) := by
    unfold executeTask
    simp only [hget, hx]
    rw [if_neg hrun]
    simp only [hcut, Bool.false_eq_true, if_false, hw]
    rw [if_neg (by simp)]
  rw [hred]
  refine ⟨rfl, ?_, ?_, ?_, ?_⟩
  · apply handleLaunchFailure_statusOf_isSome
    rw [earlyExitCleanup_getTask, getTask_updateTaskStatus, execPreamble_getTask,
      getTask_updateTaskStatus, hget]
    rfl
  · exact handleLaunchFailure_runningContains _ tid task env.now
  · exact handleLaunchFailure_taskLogEntries _ tid task env.now
  · rw [handleLaunchFailure_logEntries, earlyExitCleanup_taskLogEntries]
    dsimp only
    rw [earlyExitCleanup_logEntries]
    rfl

/-- C9: when the execution path is invoked for a task with no previous
log entries and the wrapper script is missing, afterwards the task is
failed and exactly one LogEntry exists for it — the one created by this
run — and that entry is closed with a non-null end time. -/
theorem C9_wrapper_missing (env : ExecEnv) (st : SysState) (tid : Nat)
    (task : Task)
    (hget : getTask st tid = some task)
    (hrun : task.status ≠ TaskStatus.running)
    (hcut : pastEndDateCutoff task env.now = false)
    (hw : env.wrapperExists = false)
    (hlogs : getTaskLogs st tid = []) :
    (executeTask env st tid).2 = ExecResult.failedWrapperMissing ∧
      statusOf (executeTask env st tid).1 tid = some TaskStatus.failed ∧
      getTaskLogs (executeTask env st tid).1 tid =
        [⟨st.nextEntryId, tid, generateLogFilePath tid task.name env.now,
          env.now, some env.now⟩] := by
  have hred : executeTask env st tid =
      (handleLaunchFailure (execPreamble env st tid task) tid task env.now,
        ExecResult.failedWrapperMissing) := by
    unfold executeTask
    simp only [hget]
    rw [if_neg hrun]
    simp only [hcut, Bool.false_eq_true, if_false, hw, if_true]
  rw [hred]
  refine ⟨rfl, ?_, ?_⟩
  · apply handleLaunchFailure_statusOf_isSome
    rw [execPreamble_getTask, getTask_updateTaskStatus, hget]
    rfl
  · unfold getTaskLogs
    rw [handleLaunchFailure_logEntries, execPreamble_taskLogEntries]
    dsimp only
    rw [execPreamble_logEntries,
      setEntryEnd_cons_self
        ⟨st.nextEntryId, tid, generateLogFilePath tid task.name env.now,
          env.now, Option.none⟩ st.logEntries env.now]
    have h0 : st.logEntries.filter (fun e => e.taskId == tid) = [] := hlogs
    simp [List.filter_cons, h0]

/-- Concrete data for the C5 witness: a pending one-shot task whose
wrapper process exits with code zero inside the grace period. -/
def exTaskC5 : Task :=
  { id := 5, name := "w", activateEnvCommand := "source env.sh",
    mainProgramCommand := "python run.py", repeatType := RepeatType.none,
    startTime := ⟨2025, 6, 1, 8, 0, 0⟩, endTime := Option.none,
    status := TaskStatus.pending, processId := Option.none,
    createdAt := ⟨2025, 5, 1, 0, 0, 0⟩, updatedAt := ⟨2025, 5, 1, 0, 0, 0⟩ }

def envC5 : ExecEnv :=
  { wrapperExists := true, earlyExit := some 0, pid := 7,
    now := ⟨2025, 6, 1, 8, 0, 1⟩ }

def exStateC5 : SysState :=
  { tasks := [exTaskC5], logEntries := [], nextEntryId := 1,
    jobs := emptyJobTable, runningProcesses := [], taskLogEntries := [],
    taskLogFiles := [], fileSystem := [] }

theorem C5_early_exit_failure_witness :
    (executeTask envC5 exStateC5 5).2 = ExecResult.failedEarlyExit 0 ∧
      statusOf (executeTask envC5 exStateC5 5).1 5 = some TaskStatus.failed ∧
      (executeTask envC5 exStateC5 5).1.runningProcesses.contains 5 = false ∧
      alGet (executeTask envC5 exStateC5 5).1.taskLogEntries 5 = Option.none ∧
      (executeTask envC5 exStateC5 5).1.logEntries.head? = some
        ⟨exStateC5.nextEntryId, 5, generateLogFilePath 5 exTaskC5.name envC5.now,
          envC5.now, some envC5.now⟩ :=
  C5_early_exit_failure envC5 exStateC5 5 exTaskC5 0
    (by decide) (by decide) (by decide) rfl rfl

/-- Concrete data for the C9 witness: a pending task with no log history
fired while the wrapper script is missing. -/
def exTaskC9 : Task :=
  { id := 9, name := "m", activateEnvCommand := "source env.sh",
    mainProgramCommand := "python job.py", repeatType := RepeatType.none,
    startTime := ⟨2025, 6, 2, 8, 0, 0⟩, endTime := Option.none,
    status := TaskStatus.pending, processId := Option.none,
    createdAt := ⟨2025, 5, 1, 0, 0, 0⟩, updatedAt := ⟨2025, 5, 1, 0, 0, 0⟩ }

def envC9 : ExecEnv :=
  { wrapperExists := false, earlyExit := Option.none, pid := 11,
    now := ⟨2025, 6, 2, 8, 0, 1⟩ }

def exStateC9 : SysState :=
  { tasks := [exTaskC9], logEntries := [], nextEntryId := 1,
    jobs := emptyJobTable, runningProcesses := [], taskLogEntries := [],
    taskLogFiles := [], fileSystem := [] }

theorem C9_wrapper_missing_witness :
    (executeTask envC9 exStateC9 9).2 = ExecResult.failedWrapperMissing ∧
      statusOf (executeTask envC9 exStateC9 9).1 9 = some TaskStatus.failed ∧
      getTaskLogs (executeTask envC9 exStateC9 9).1 9 =
        [⟨exStateC9.nextEntryId, 9, generateLogFilePath 9 exTaskC9.name envC9.now,
          envC9.now, some envC9.now⟩] :=
  C9_wrapper_missing envC9 exStateC9 9 exTaskC9
    (by decide) (by decide) (by decide) rfl (by decide)

/-! ### Helper lemmas for the reconciliation sweep (C6) -/

theorem contains_false_filter (l : List Nat) (tid : Nat) (p : Nat → Bool)
    (h : l.contains tid = false) : (l.filter p).contains tid = false := by
  induction l with
  | nil => rfl
  | cons a l ih =>
      rw [List.contains_cons] at h
      have ha : (tid == a) = false := by
        cases hc : (tid == a) with
        | true => rw [hc] at h; simp at h
        | false => rfl
      have hl : l.contains tid = false := by
        cases hc : l.contains tid with
        | true => rw [hc] at h; simp at h
        | false => rfl
      rw [List.filter_cons]
      cases hp : p a with
      | true => simp only [if_true, List.contains_cons, ha, Bool.false_or]; exact ih hl
      | false => simp only [Bool.false_eq_true, if_false]; exact ih hl

theorem alGet_alErase_ne {α : Type} {k k' : Nat} (hne : k ≠ k')
    (l : List (Nat × α)) : alGet (alErase l k') k = alGet l k := by
  unfold alGet alErase
  induction l with
  | nil => rfl
  | cons p l ih =>
      by_cases h : p.1 = k'
      · have h1 : (p.1 != k') = false := by simp [h]
        have h2 : (p.1 == k) = false := by simp [h]; omega
        simp only [List.filter_cons, h1, Bool.false_eq_true, if_false]
        rw [@List.find?_cons_of_neg _ (fun q : Nat × α => q.1 == k) p _ (by simp [h2])]
        exact ih
      · have h1 : (p.1 != k') = true := by simp [h]
        simp only [List.filter_cons, h1, if_true]
        cases h2 : (p.1 == k) with
        | true =>
            rw [@List.find?_cons_of_pos _ (fun q : Nat × α => q.1 == k) p _ h2,
              @List.find?_cons_of_pos _ (fun q : Nat × α => q.1 == k) p _ h2]
        | false =>
            rw [@List.find?_cons_of_neg _ (fun q : Nat × α => q.1 == k) p _ (by simp [h2]),
              @List.find?_cons_of_neg _ (fun q : Nat × α => q.1 == k) p _ (by simp [h2])]
            exact ih

theorem alGet_alSet_ne {α : Type} {k k' : Nat} (hne : k ≠ k')
    (l : List (Nat × α)) (v : α) : alGet (alSet l k' v) k = alGet l k := by
  have h1 : alGet (alErase l k') k = alGet l k := alGet_alErase_ne hne l
  unfold alSet alGet at *
  rw [List.find?_cons_of_neg _ (by simp; omega)]
  exact h1

theorem setEntryEnd_map_id (eid : Nat) (now : DateTime) (l : List LogEntry) :
    (setEntryEnd eid now l).map LogEntry.id = l.map LogEntry.id := by
  induction l with
  | nil => rfl
  | cons e es ih =>
      unfold setEntryEnd
      cases h : (e.id == eid) with
      | true => simp
      | false =>
          simp only [Bool.false_eq_true, if_false, List.map_cons]
          rw [ih]

theorem mem_setEntryEnd_id (eid : Nat) (now : DateTime) (l : List LogEntry)
    (en : LogEntry) (h : en ∈ setEntryEnd eid now l) :
    en.id ∈ l.map LogEntry.id := by
  have h2 : en.id ∈ (setEntryEnd eid now l).map LogEntry.id :=
    List.mem_map_of_mem _ h
  rwa [setEntryEnd_map_id] at h2

theorem setEntryEnd_closed_preserved (eid' eid : Nat) (now : DateTime)
    (l : List LogEntry)
    (hcl : ∀ en ∈ l, en.id = eid → en.endTime.isSome = true) :
    ∀ en ∈ setEntryEnd eid' now l, en.id = eid → en.endTime.isSome = true := by
  induction l with
  | nil => intro en hen; simp [setEntryEnd] at hen
  | cons e es ih =>
      intro en hen hid
      unfold setEntryEnd at hen
      cases h : (e.id == eid') with
      | true =>
          rw [h, if_pos rfl] at hen
          rcases List.mem_cons.mp hen with hen | hen
          · subst hen; rfl
          · exact hcl en (List.mem_cons_of_mem e hen) hid
      | false =>
          rw [h] at hen
          simp only [Bool.false_eq_true, if_false] at hen
          rcases List.mem_cons.mp hen with hen | hen
          · have hmem : en ∈ e :: es := by rw [hen]; exact List.mem_cons_self e es
            exact hcl en hmem hid
          · exact ih (fun x hx => hcl x (List.mem_cons_of_mem e hx)) en hen hid

theorem setEntryEnd_closes (eid : Nat) (now : DateTime) (l : List LogEntry)
    (hnodup : (l.map LogEntry.id).Nodup) :
    ∀ en ∈ setEntryEnd eid now l, en.id = eid → en.endTime.isSome = true := by
  induction l with
  | nil => intro en hen; simp [setEntryEnd] at hen
  | cons e es ih =>
      intro en hen hid
      unfold setEntryEnd at hen
      cases h : (e.id == eid) with
      | true =>
          rw [h, if_pos rfl] at hen
          rcases List.mem_cons.mp hen with hen | hen
          · subst hen; rfl
          · exfalso
            have he : e.id = eid := by simpa using h
            have hmem : en.id ∈ es.map LogEntry.id := List.mem_map_of_mem _ hen
            rw [hid, ← he] at hmem
            rw [List.map_cons, List.nodup_cons] at hnodup
            exact hnodup.1 hmem
      | false =>
          rw [h] at hen
          simp only [Bool.false_eq_true, if_false] at hen
          rcases List.mem_cons.mp hen with hen | hen
          · exfalso
            subst hen
            rw [hid] at h
            simp at h
          · rw [List.map_cons, List.nodup_cons] at hnodup
            exact ih hnodup.2 en hen hid

theorem find?_map_update_ne (upd : Task → Task) (hid : ∀ t, (upd t).id = t.id)
    (ts : List Task) (tid tid' : Nat) (hne : tid ≠ tid') :
    (ts.map (fun t => if t.id == tid' then upd t else t)).find?
        (fun t => t.id == tid) =
      ts.find? (fun t => t.id == tid) := by
  induction ts with
  | nil => rfl
  | cons t ts ih =>
      cases h1 : (t.id == tid') with
      | true =>
          have ht : t.id = tid' := by simpa using h1
          have h2 : ((upd t).id == tid) = false := by
            rw [hid]; simp [ht]; omega
          have h3 : (t.id == tid) = false := by simp [ht]; omega
          simp only [List.map_cons, h1, if_true]
          rw [@List.find?_cons_of_neg _ (fun x : Task => x.id == tid) (upd t) _
              (by simp [h2]),
            @List.find?_cons_of_neg _ (fun x : Task => x.id == tid) t _
              (by simp [h3])]
          exact ih
      | false =>
          simp only [List.map_cons, h1, Bool.false_eq_true, if_false]
          cases h2 : (t.id == tid) with
          | true =>
              rw [@List.find?_cons_of_pos _ (fun x : Task => x.id == tid) t _ h2,
                @List.find?_cons_of_pos _ (fun x : Task => x.id == tid) t _ h2]
          | false =>
              rw [@List.find?_cons_of_neg _ (fun x : Task => x.id == tid) t _
                  (by simp [h2]),
                @List.find?_cons_of_neg _ (fun x : Task => x.id == tid) t _
                  (by simp [h2])]
              exact ih

theorem getTask_updateTaskStatus_ne (st : SysState) (tid tid' : Nat)
    (s : TaskStatus) (pid : Option Nat) (now : DateTime) (hne : tid ≠ tid') :
    getTask (updateTaskStatus st tid' s pid now) tid = getTask st tid := by
  unfold getTask updateTaskStatus
  dsimp only
  exact find?_map_update_ne (fun t =>
    { t with status := s,
             processId := match pid with
               | some p => some p
               | Option.none => t.processId,
             updatedAt := now }) (fun t => rfl) st.tasks tid tid' hne

theorem endTrackedLogEntry_nextEntryId (st : SysState) (tid : Nat)
    (now : DateTime) :
    (endTrackedLogEntry st tid now).nextEntryId = st.nextEntryId := by
  unfold endTrackedLogEntry endLogEntry
  cases alGet st.taskLogEntries tid <;> rfl

theorem endTrackedLogEntry_alGet_ne (st : SysState) {tid0 tid : Nat}
    (now : DateTime) (hne : tid0 ≠ tid) :
    alGet (endTrackedLogEntry st tid now).taskLogEntries tid0 =
      alGet st.taskLogEntries tid0 := by
  unfold endTrackedLogEntry endLogEntry
  cases h : alGet st.taskLogEntries tid with
  | some eid => dsimp only; exact alGet_alErase_ne hne _
  | none => rfl

theorem reapExitedProcess_tasks (env : MonitorEnv) (st : SysState)
    (tid : Nat) (code : Int) :
    (reapExitedProcess env st tid code).tasks =
      (updateTaskStatus st tid
        (if code = 0 then TaskStatus.completed else TaskStatus.failed)
        Option.none env.now).tasks := by
  unfold reapExitedProcess
  dsimp only
  rw [endTrackedLogEntry_tasks]

theorem reapExitedProcess_logEntries (env : MonitorEnv) (st : SysState)
    (tid : Nat) (code : Int) :
    (reapExitedProcess env st tid code).logEntries =
      (match alGet st.taskLogEntries tid with
        | some eid => setEntryEnd eid env.now st.logEntries
        | Option.none => st.logEntries) := by
  unfold reapExitedProcess
  dsimp only
  simp only [endTrackedLogEntry_logEntries, updateTaskStatus_taskLogEntries,
    updateTaskStatus_logEntries]

theorem reapExitedProcess_nextEntryId (env : MonitorEnv) (st : SysState)
    (tid : Nat) (code : Int) :
    (reapExitedProcess env st tid code).nextEntryId = st.nextEntryId := by
  unfold reapExitedProcess
  dsimp only
  rw [endTrackedLogEntry_nextEntryId]
  rfl

theorem reapExitedProcess_runningProcesses (env : MonitorEnv) (st : SysState)
    (tid : Nat) (code : Int) :
    (reapExitedProcess env st tid code).runningProcesses =
      st.runningProcesses.filter (fun i => i != tid) := by
  unfold reapExitedProcess
  dsimp only
  rw [endTrackedLogEntry_runningProcesses]
  rfl

theorem reapExitedProcess_getTask_ne (env : MonitorEnv) (st : SysState)
    {tid0 tid : Nat} (code : Int) (hne : tid0 ≠ tid) :
    getTask (reapExitedProcess env st tid code) tid0 = getTask st tid0 := by
  have h : getTask (reapExitedProcess env st tid code) tid0 =
      getTask (updateTaskStatus st tid
        (if code = 0 then TaskStatus.completed else TaskStatus.failed)
        Option.none env.now) tid0 := by
    unfold getTask
    rw [reapExitedProcess_tasks]
  rw [h]
  exact getTask_updateTaskStatus_ne st tid0 tid _ _ _ hne

theorem reapExitedProcess_alGetEntries_ne (env : MonitorEnv) (st : SysState)
    {tid0 tid : Nat} (code : Int) (hne : tid0 ≠ tid) :
    alGet (reapExitedProcess env st tid code).taskLogEntries tid0 =
      alGet st.taskLogEntries tid0 := by
  unfold reapExitedProcess
  dsimp only
  exact endTrackedLogEntry_alGet_ne _ env.now hne

theorem adoptNewestLog_tasks (env : MonitorEnv) (st : SysState) (tid : Nat) :
    (adoptNewestLog env st tid).tasks = st.tasks := by
  unfold adoptNewestLog createLogEntry
  cases env.newestLogFile tid with
  | none => rfl
  | some latest =>
      dsimp only
      repeat' split
      all_goals rfl

theorem adoptNewestLog_runningProcesses (env : MonitorEnv) (st : SysState)
    (tid : Nat) :
    (adoptNewestLog env st tid).runningProcesses = st.runningProcesses := by
  unfold adoptNewestLog createLogEntry
  cases env.newestLogFile tid with
  | none => rfl
  | some latest =>
      dsimp only
      repeat' split
      all_goals rfl

theorem adoptNewestLog_alGetEntries_ne (env : MonitorEnv) (st : SysState)
    {tid0 tid : Nat} (hne : tid0 ≠ tid) :
    alGet (adoptNewestLog env st tid).taskLogEntries tid0 =
      alGet st.taskLogEntries tid0 := by
  unfold adoptNewestLog createLogEntry
  cases env.newestLogFile tid with
  | none => rfl
  | some latest =>
      dsimp only
      repeat' split
      all_goals simp only [alGet_alSet_ne hne]

theorem adoptNewestLog_entries_shape (env : MonitorEnv) (st : SysState)
    (tid : Nat) :
    ((adoptNewestLog env st tid).logEntries = st.logEntries ∧
      (adoptNewestLog env st tid).nextEntryId = st.nextEntryId) ∨
    ((∃ pth, (adoptNewestLog env st tid).logEntries =
        ⟨st.nextEntryId, tid, pth, env.now, Option.none⟩ :: st.logEntries) ∧
      (adoptNewestLog env st tid).nextEntryId = st.nextEntryId + 1) := by
  unfold adoptNewestLog createLogEntry
  cases env.newestLogFile tid with
  | none => exact Or.inl ⟨rfl, rfl⟩
  | some latest =>
      dsimp only
      repeat' split
      all_goals first
        | exact Or.inl ⟨rfl, rfl⟩
        | exact Or.inr ⟨⟨latest, rfl⟩, rfl⟩

/-! ### The loop body's effect, combined over both arms -/

theorem monitorOne_getTask_ne (env : MonitorEnv) (st : SysState)
    {tid0 tid : Nat} (hne : tid0 ≠ tid) :
    getTask (monitorOne env st tid) tid0 = getTask st tid0 := by
  unfold monitorOne
  cases hex : env.exitCode tid with
  | some code => exact reapExitedProcess_getTask_ne env st code hne
  | none =>
      unfold getTask
      rw [adoptNewestLog_tasks]

theorem monitorOne_alGetEntries_ne (env : MonitorEnv) (st : SysState)
    {tid0 tid : Nat} (hne : tid0 ≠ tid) :
    alGet (monitorOne env st tid).taskLogEntries tid0 =
      alGet st.taskLogEntries tid0 := by
  unfold monitorOne
  cases hex : env.exitCode tid with
  | some code => exact reapExitedProcess_alGetEntries_ne env st code hne
  | none => exact adoptNewestLog_alGetEntries_ne env st hne

theorem monitorOne_running (env : MonitorEnv) (st : SysState) (tid : Nat) :
    (monitorOne env st tid).runningProcesses = st.runningProcesses ∨
    (monitorOne env st tid).runningProcesses =
      st.runningProcesses.filter (fun i => i != tid) := by
  unfold monitorOne
  cases hex : env.exitCode tid with
  | some code => exact Or.inr (reapExitedProcess_runningProcesses env st tid code)
  | none => exact Or.inl (adoptNewestLog_runningProcesses env st tid)

theorem monitorOne_nextId_mono (env : MonitorEnv) (st : SysState) (tid : Nat) :
    st.nextEntryId ≤ (monitorOne env st tid).nextEntryId := by
  unfold monitorOne
  cases hex : env.exitCode tid with
  | some code =>
      rw [reapExitedProcess_nextEntryId]
  | none =>
      dsimp only
      rcases adoptNewestLog_entries_shape env st tid with ⟨_, hni⟩ | ⟨_, hni⟩ <;>
        omega

theorem monitorOne_presence (env : MonitorEnv) (st : SysState) (tid eid : Nat)
    (h : eid ∈ st.logEntries.map LogEntry.id) :
    eid ∈ (monitorOne env st tid).logEntries.map LogEntry.id := by
  unfold monitorOne
  cases hex : env.exitCode tid with
  | some code =>
      have hle := reapExitedProcess_logEntries env st tid code
      cases halg : alGet st.taskLogEntries tid with
      | some e' =>
          rw [halg] at hle
          rw [hle, setEntryEnd_map_id]
          exact h
      | none =>
          rw [halg] at hle
          rw [hle]
          exact h
  | none =>
      rcases adoptNewestLog_entries_shape env st tid with ⟨hle, _⟩ | ⟨⟨pth, hle⟩, _⟩
      · rw [hle]; exact h
      · rw [hle, List.map_cons]
        exact List.mem_cons_of_mem _ h

theorem monitorOne_closed_pres (env : MonitorEnv) (st : SysState) (tid eid : Nat)
    (hbound : eid < st.nextEntryId)
    (hcl : ∀ en ∈ st.logEntries, en.id = eid → en.endTime.isSome = true) :
    ∀ en ∈ (monitorOne env st tid).logEntries, en.id = eid →
      en.endTime.isSome = true := by
  unfold monitorOne
  cases hex : env.exitCode tid with
  | some code =>
      have hle := reapExitedProcess_logEntries env st tid code
      cases halg : alGet st.taskLogEntries tid with
      | some e' =>
          rw [halg] at hle
          rw [hle]
          exact setEntryEnd_closed_preserved e' eid env.now st.logEntries hcl
      | none =>
          rw [halg] at hle
          rw [hle]
          exact hcl
  | none =>
      rcases adoptNewestLog_entries_shape env st tid with ⟨hle, _⟩ | ⟨⟨pth, hle⟩, _⟩
      · rw [hle]; exact hcl
      · rw [hle]
        intro en hen hid
        rcases List.mem_cons.mp hen with hh | hen
        · exfalso
          rw [hh] at hid
          simp only at hid
          omega
        · exact hcl en hen hid

/-- Freshness and uniqueness of log-entry ids, plus presence of the
tracked entry `eid` — the invariant every reachable database state
satisfies. -/
def EntriesInv (eid : Nat) (st : SysState) : Prop :=
  (∀ en ∈ st.logEntries, en.id < st.nextEntryId) ∧
  (st.logEntries.map LogEntry.id).Nodup ∧
  eid ∈ st.logEntries.map LogEntry.id

theorem monitorOne_EntriesInv (env : MonitorEnv) (st : SysState)
    (tid eid : Nat) (h : EntriesInv eid st) :
    EntriesInv eid (monitorOne env st tid) := by
  obtain ⟨hb, hn, hm⟩ := h
  unfold monitorOne
  cases hex : env.exitCode tid with
  | some code =>
      have hle := reapExitedProcess_logEntries env st tid code
      have hni := reapExitedProcess_nextEntryId env st tid code
      cases halg : alGet st.taskLogEntries tid with
      | some e' =>
          rw [halg] at hle
          refine ⟨?_, ?_, ?_⟩
          · intro en hen
            rw [hle] at hen
            rw [hni]
            have hmm := mem_setEntryEnd_id e' env.now st.logEntries en hen
            obtain ⟨en', hen', hid⟩ := List.mem_map.mp hmm
            have := hb en' hen'
            omega
          · rw [hle, setEntryEnd_map_id]; exact hn
          · rw [hle, setEntryEnd_map_id]; exact hm
      | none =>
          rw [halg] at hle
          refine ⟨?_, ?_, ?_⟩
          · intro en hen
            rw [hle] at hen
            rw [hni]
            exact hb en hen
          · rw [hle]; exact hn
          · rw [hle]; exact hm
  | none =>
      rcases adoptNewestLog_entries_shape env st tid with ⟨hle, hni⟩ | ⟨⟨pth, hle⟩, hni⟩
      · refine ⟨?_, ?_, ?_⟩
        · intro en hen
          rw [hle] at hen
          rw [hni]
          exact hb en hen
        · rw [hle]; exact hn
        · rw [hle]; exact hm
      · refine ⟨?_, ?_, ?_⟩
        · intro en hen
          rw [hle] at hen
          rw [hni]
          rcases List.mem_cons.mp hen with hh | hen
          · rw [hh]; simp only; omega
          · have := hb en hen; omega
        · rw [hle, List.map_cons]
          refine List.nodup_cons.mpr ⟨?_, hn⟩
          intro hmem
          obtain ⟨en', hen', hid⟩ := List.mem_map.mp hmem
          have := hb en' hen'
          simp only at hid
          omega
        · rw [hle, List.map_cons]
          exact List.mem_cons_of_mem _ hm

/-- `_monitor_tasks` on the exited task itself. -/
theorem monitorOne_exited_spec (env : MonitorEnv) (st : SysState)
    (tid : Nat) (code : Int) (eid : Nat) (t0 : Task)
    (hex : env.exitCode tid = some code)
    (htr : alGet st.taskLogEntries tid = some eid)
    (hget : getTask st tid = some t0)
    (hn : (st.logEntries.map LogEntry.id).Nodup) :
    statusOf (monitorOne env st tid) tid =
      some (if code = 0 then TaskStatus.completed else TaskStatus.failed) ∧
    (monitorOne env st tid).runningProcesses.contains tid = false ∧
    (monitorOne env st tid).logEntries.map LogEntry.id =
      st.logEntries.map LogEntry.id ∧
    (monitorOne env st tid).nextEntryId = st.nextEntryId ∧
    (∀ en ∈ (monitorOne env st tid).logEntries, en.id = eid →
      en.endTime.isSome = true) := by
  unfold monitorOne
  simp only [hex]
  have hle := reapExitedProcess_logEntries env st tid code
  rw [htr] at hle
  refine ⟨?_, ?_, ?_, ?_, ?_⟩
  · unfold statusOf getTask
    rw [reapExitedProcess_tasks]
    have h := statusOf_updateTaskStatus st tid
      (if code = 0 then TaskStatus.completed else TaskStatus.failed)
      Option.none env.now t0 hget
    unfold statusOf getTask at h
    exact h
  · rw [reapExitedProcess_runningProcesses]
    exact contains_filter_ne_self _ tid
  · rw [hle, setEntryEnd_map_id]
  · exact reapExitedProcess_nextEntryId env st tid code
  · rw [hle]
    exact setEntryEnd_closes eid env.now st.logEntries hn

/-- What holds of the state from the moment the exited task has been
reaped, and stays true over the rest of the sweep. -/
def AfterReap (tid eid : Nat) (s0 : TaskStatus) (st : SysState) : Prop :=
  statusOf st tid = some s0 ∧
  st.runningProcesses.contains tid = false ∧
  (∀ en ∈ st.logEntries, en.id = eid → en.endTime.isSome = true) ∧
  eid ∈ st.logEntries.map LogEntry.id ∧
  eid < st.nextEntryId

theorem monitorOne_AfterReap (env : MonitorEnv) (st : SysState)
    {tid tid' eid : Nat} {s0 : TaskStatus} (hne : tid ≠ tid')
    (h : AfterReap tid eid s0 st) :
    AfterReap tid eid s0 (monitorOne env st tid') := by
  obtain ⟨h1, h2, h3, h4, h5⟩ := h
  refine ⟨?_, ?_, ?_, ?_, ?_⟩
  · unfold statusOf at h1 ⊢
    rw [monitorOne_getTask_ne env st hne]
    exact h1
  · rcases monitorOne_running env st tid' with hr | hr
    · rw [hr]; exact h2
    · rw [hr]; exact contains_false_filter _ _ _ h2
  · exact monitorOne_closed_pres env st tid' eid h5 h3
  · exact monitorOne_presence env st tid' eid h4
  · calc eid < st.nextEntryId := h5
      _ ≤ _ := monitorOne_nextId_mono env st tid'

theorem foldl_monitor_getTask_ne (env : MonitorEnv) (l : List Nat) (tid : Nat)
    (hne : ∀ x ∈ l, x ≠ tid) :
    ∀ st : SysState, getTask (l.foldl (monitorOne env) st) tid = getTask st tid := by
  induction l with
  | nil => intro st; rfl
  | cons a l ih =>
      intro st
      rw [List.foldl_cons,
        ih (fun x hx => hne x (List.mem_cons_of_mem a hx)) (monitorOne env st a)]
      exact monitorOne_getTask_ne env st (Ne.symm (hne a (List.mem_cons_self a l)))

theorem foldl_monitor_alGetEntries_ne (env : MonitorEnv) (l : List Nat)
    (tid : Nat) (hne : ∀ x ∈ l, x ≠ tid) :
    ∀ st : SysState, alGet (l.foldl (monitorOne env) st).taskLogEntries tid =
      alGet st.taskLogEntries tid := by
  induction l with
  | nil => intro st; rfl
  | cons a l ih =>
      intro st
      rw [List.foldl_cons,
        ih (fun x hx => hne x (List.mem_cons_of_mem a hx)) (monitorOne env st a)]
      exact monitorOne_alGetEntries_ne env st (Ne.symm (hne a (List.mem_cons_self a l)))

theorem foldl_monitor_EntriesInv (env : MonitorEnv) (l : List Nat) (eid : Nat) :
    ∀ st : SysState, EntriesInv eid st →
      EntriesInv eid (l.foldl (monitorOne env) st) := by
  induction l with
  | nil => intro st h; exact h
  | cons a l ih =>
      intro st h
      rw [List.foldl_cons]
      exact ih (monitorOne env st a) (monitorOne_EntriesInv env st a eid h)

theorem foldl_monitor_AfterReap (env : MonitorEnv) (l : List Nat)
    {tid eid : Nat} {s0 : TaskStatus} (hne : ∀ x ∈ l, x ≠ tid) :
    ∀ st : SysState, AfterReap tid eid s0 st →
      AfterReap tid eid s0 (l.foldl (monitorOne env) st) := by
  induction l with
  | nil => intro st h; exact h
  | cons a l ih =>
      intro st h
      rw [List.foldl_cons]
      exact ih (fun x hx => hne x (List.mem_cons_of_mem a hx))
        (monitorOne env st a)
        (monitorOne_AfterReap env st (Ne.symm (hne a (List.mem_cons_self a l))) h)

/-- C6: on a reconciliation sweep, every task with a live supervisor
entry whose process has exited is classified by exit code — completed
when zero, failed otherwise — its supervisor entry is removed, and its
current log entry (the tracked entry `eid`) still exists and is closed.
The hypotheses state the well-formedness every reachable state has:
supervisor keys are unique, log-entry ids are unique and below the
autoincrement counter, and the tracked entry is on record. -/
theorem C6_monitor_exited (env : MonitorEnv) (st : SysState) (tid : Nat)
    (code : Int) (eid : Nat) (t0 : Task)
    (hmem : tid ∈ st.runningProcesses)
    (hnodup : st.runningProcesses.Nodup)
    (hex : env.exitCode tid = some code)
    (htr : alGet st.taskLogEntries tid = some eid)
    (hget : getTask st tid = some t0)
    (hinv : EntriesInv eid st) :
    statusOf (monitorTasks env st) tid =
      some (if code = 0 then TaskStatus.completed else TaskStatus.failed) ∧
    (monitorTasks env st).runningProcesses.contains tid = false ∧
    (∃ en ∈ (monitorTasks env st).logEntries, en.id = eid) ∧
    (∀ en ∈ (monitorTasks env st).logEntries, en.id = eid →
      en.endTime.isSome = true) := by
  obtain ⟨l1, l2, hsplit⟩ := List.append_of_mem hmem
  have hnd := hnodup
  rw [hsplit] at hnd
  have h1 : ∀ x ∈ l1, x ≠ tid := by
    intro x hx hxe
    subst hxe
    rcases List.nodup_append.mp hnd with ⟨_, _, hdisj⟩
    exact hdisj hx (List.mem_cons_self x l2)
  have h2 : ∀ x ∈ l2, x ≠ tid := by
    intro x hx hxe
    subst hxe
    rcases List.nodup_append.mp hnd with ⟨_, hnd2, _⟩
    rw [List.nodup_cons] at hnd2
    exact hnd2.1 hx
  unfold monitorTasks
  rw [hsplit, List.foldl_append, List.foldl_cons]
  have hgmid : getTask (l1.foldl (monitorOne env) st) tid = some t0 := by
    rw [foldl_monitor_getTask_ne env l1 tid h1 st]
    exact hget
  have htrmid : alGet (l1.foldl (monitorOne env) st).taskLogEntries tid = some eid := by
    rw [foldl_monitor_alGetEntries_ne env l1 tid h1 st]
    exact htr
  have hinvmid : EntriesInv eid (l1.foldl (monitorOne env) st) :=
    foldl_monitor_EntriesInv env l1 eid st hinv
  obtain ⟨hs1, hs2, hsmap, hsnext, hscl⟩ :=
    monitorOne_exited_spec env (l1.foldl (monitorOne env) st) tid code eid t0
      hex htrmid hgmid hinvmid.2.1
  have hafter : AfterReap tid eid
      (if code = 0 then TaskStatus.completed else TaskStatus.failed)
      (monitorOne env (l1.foldl (monitorOne env) st) tid) := by
    refine ⟨hs1, hs2, hscl, ?_, ?_⟩
    · rw [hsmap]
      exact hinvmid.2.2
    · rw [hsnext]
      obtain ⟨en, hen, hid⟩ := List.mem_map.mp hinvmid.2.2
      have := hinvmid.1 en hen
      omega
  have hfinal := foldl_monitor_AfterReap env l2 h2 _ hafter
  obtain ⟨f1, f2, f3, f4, _⟩ := hfinal
  refine ⟨f1, f2, ?_, f3⟩
  obtain ⟨en, hen, hid⟩ := List.mem_map.mp f4
  exact ⟨en, hen, hid⟩

/-- Concrete data for the C6 witness: task 6 is running under the
supervisor; its process has exited with code 0 by the time the sweep
runs. -/
def envC6 : MonitorEnv :=
  { exitCode := fun t => if t = 6 then some 0 else Option.none,
    newestLogFile := fun _ => Option.none,
    now := ⟨2025, 6, 3, 9, 0, 0⟩ }

def exTaskC6 : Task :=
  { id := 6, name := "s", activateEnvCommand := "source env.sh",
    mainProgramCommand := "python svc.py", repeatType := RepeatType.none,
    startTime := ⟨2025, 6, 3, 8, 0, 0⟩, endTime := Option.none,
    status := TaskStatus.running, processId := some 77,
    createdAt := ⟨2025, 6, 1, 0, 0, 0⟩, updatedAt := ⟨2025, 6, 1, 0, 0, 0⟩ }

def exStateC6 : SysState :=
  { tasks := [exTaskC6],
    logEntries := [⟨1, 6, "logs/c6.txt", ⟨2025, 6, 3, 8, 0, 0⟩, Option.none⟩],
    nextEntryId := 2, jobs := emptyJobTable, runningProcesses := [6],
    taskLogEntries := [(6, 1)], taskLogFiles := [(6, "logs/c6.txt")],
    fileSystem := ["logs/c6.txt"] }

theorem C6_monitor_exited_witness :
    statusOf (monitorTasks envC6 exStateC6) 6 =
      some (if (0 : Int) = 0 then TaskStatus.completed else TaskStatus.failed) ∧
    (monitorTasks envC6 exStateC6).runningProcesses.contains 6 = false ∧
    (∃ en ∈ (monitorTasks envC6 exStateC6).logEntries, en.id = 1) ∧
    (∀ en ∈ (monitorTasks envC6 exStateC6).logEntries, en.id = 1 →
      en.endTime.isSome = true) :=
  C6_monitor_exited envC6 exStateC6 6 0 1 exTaskC6
    (by decide) (by decide) (by decide) (by decide) (by decide)
    ⟨by decide, by decide, by decide⟩

end AIMon
